import Mathlib

/-!
Shallow embedding of the pixijs-cad-poc core: the shape store, spatial-index
viewport culling and LOD engine, selection manager and interaction state
machine of `src/pixi/ShapeManager.ts`, together with the project importer
(`parseIrrigationProject`, robust variant in `src/unnamed/part_001`) and the
synthetic stress-test generator (`generateStressTestShapes`,
`src/unnamed/part_000`).

Modelling conventions:
- Numbers are rationals.  `Math.sqrt` appears in the source only in the
  zoom-out factor of `cullShapes`, in point resizing inside
  `handlePointerMove`, and in the block-size arithmetic of the generator.
  Where the square root feeds a comparison against a fixed threshold
  (`cullShapes`) the embedding compares the squared quantities, and the
  equivalence with the real-valued `Real.sqrt` formulation is proved
  (`lodLevelOfArea_eq_sqrt`).  Where the square root's value is data
  (`handlePointerMove`, generator), the embedding takes an explicit
  square-root function `sqrtFn : Q -> Q` as a parameter standing for
  `Math.sqrt`.
- Pixi `Graphics` objects are modelled by their identity only: each
  `addShape` allocates a fresh numeric id (`gid`), and the children of
  `shapesContainer` are modelled as the finite set of attached `gid`s.
- `updateShapeVisuals` redraws pixels; the embedding records each call in a
  ghost log `visualLog` of `(shapeId, highlighted)` pairs.
- The `labels` map of `ShapeManager` is never populated (every write to it
  is commented out in the source), so it is omitted from the state.
-/

namespace PixiCad

/-- `Coordinate` from `src/types/shapes.ts`: an (x, y) pair. -/
structure Coordinate where
  x : ℚ
  y : ℚ
deriving DecidableEq, Repr

/-- `ShapeStyle` from `src/types/shapes.ts`: all fields optional. -/
structure ShapeStyle where
  fillColor : Option String := none
  borderColor : Option String := none
  borderWidth : Option ℚ := none
  opacity : Option ℚ := none
deriving DecidableEq, Repr

/-- The geometry part of the tagged union `Shape` from `src/types/shapes.ts`
(`polygon` with `coordinates`, `line` with `points`, `point` with
`coordinate` and optional `radius`). -/
inductive ShapeGeom where
  | polygon (coordinates : List Coordinate)
  | line (points : List Coordinate)
  | point (coordinate : Coordinate) (radius : Option ℚ)
deriving DecidableEq, Repr

/-- A `Shape` record: id, geometry, style, optional label. -/
structure Shape where
  id : String
  geom : ShapeGeom
  style : ShapeStyle
  label : Option String := none
deriving DecidableEq, Repr

/-- `shape.type === 'line'`. -/
def isLineShape (s : Shape) : Bool :=
  match s.geom with
  | .line _ => true
  | _ => false

/-- Module-level constants of `ShapeManager.ts` (lines 18-22). -/
def LOD_MEDIUM_THRESHOLD : ℚ := 3

/-- `LOD_LOW_THRESHOLD = 8` (ShapeManager.ts line 20). -/
def LOD_LOW_THRESHOLD : ℚ := 8

/-- `BUFFER_PERCENT = 0.4` (ShapeManager.ts line 21). -/
def BUFFER_PERCENT : ℚ := 2/5

/-- `BASE_AREA = 2000 * 2000` (ShapeManager.ts line 22). -/
def BASE_AREA : ℚ := 2000 * 2000

/-- An axis-aligned bounding box `{minX, minY, maxX, maxY}`. -/
structure Box where
  minX : ℚ
  minY : ℚ
  maxX : ℚ
  maxY : ℚ
deriving DecidableEq, Repr

/-- RBush's `intersects(a, b)` test: inclusive bounding-box overlap. -/
def boxIntersects (a b : Box) : Bool :=
  decide (a.minX ≤ b.maxX) && decide (a.minY ≤ b.maxY) &&
  decide (a.maxX ≥ b.minX) && decide (a.maxY ≥ b.minY)

/-- One min/max accumulation step of `calculateShapeBounds`. -/
def expandBox (b : Box) (c : Coordinate) : Box :=
  ⟨min b.minX c.x, min b.minY c.y, max b.maxX c.x, max b.maxY c.y⟩

/-- Min/max bounding box of a coordinate list.  The source initialises the
fold at `±Infinity`; for an empty list that yields an inverted infinite box
which intersects nothing, modelled here as `none`. -/
def coordsBox : List Coordinate → Option Box
  | [] => none
  | c :: cs => some (cs.foldl expandBox ⟨c.x, c.y, c.x, c.y⟩)

/-- `shape.radius || 5` — JavaScript `||` treats `0` as falsy, so a radius of
`0` also falls back to the default `5`. -/
def radiusOrDefault : Option ℚ → ℚ
  | some r => if r = 0 then 5 else r
  | none => 5

/-- `calculateShapeBounds` (ShapeManager.ts lines 197-223): polygon/line
bounds are the min/max over their coordinates, a point's box is its center
`± (radius || 5)`. -/
def calculateShapeBounds (s : Shape) : Option Box :=
  match s.geom with
  | .polygon cs => coordsBox cs
  | .line ps => coordsBox ps
  | .point c r =>
    some ⟨c.x - radiusOrDefault r, c.y - radiusOrDefault r,
          c.x + radiusOrDefault r, c.y + radiusOrDefault r⟩

/-- An entry of the RBush spatial index: `{...bounds, id}`. -/
structure IndexItem where
  box : Option Box
  id : String
deriving DecidableEq, Repr

/-- One entry of the `shapes` map: the shape record, the identity of its
`Graphics` object, and the `inScene` attach flag. -/
structure ShapeEntry where
  gid : ℕ
  shape : Shape
  inScene : Bool
deriving DecidableEq, Repr

/-- A resize handle: its index, the shape it references, its position, and
its pixi visibility flag. -/
structure Handle where
  handleIndex : ℕ
  shapeId : String
  pos : Coordinate
  visible : Bool
deriving DecidableEq, Repr

/-- The `shapes` map of `ShapeManager` as an insertion-ordered association
list (JavaScript `Map` iteration order). -/
abbrev ShapeMap := List (String × ShapeEntry)

/-- `Map.get`. -/
def mapGet (m : ShapeMap) (k : String) : Option ShapeEntry :=
  (m.find? (fun p => p.1 == k)).map (fun p => p.2)

/-- `Map.set`: overwriting an existing key keeps its position, a new key is
appended. -/
def mapSet (m : ShapeMap) (k : String) (v : ShapeEntry) : ShapeMap :=
  if m.any (fun p => p.1 == k) then
    m.map (fun p => if p.1 == k then (k, v) else p)
  else m ++ [(k, v)]

/-- `Map.delete`. -/
def mapDelete (m : ShapeMap) (k : String) : ShapeMap :=
  m.filter (fun p => !(p.1 == k))

/-- `Set.add` on an insertion-ordered string set. -/
def setAdd (s : List String) (x : String) : List String :=
  if x ∈ s then s else s ++ [x]

/-- `Set.delete`. -/
def setDelete (s : List String) (x : String) : List String :=
  s.filter (fun y => !(y == x))

/-- The mutable state of a `ShapeManager` instance.  `sceneGids` is the set
of `Graphics` identities currently children of `shapesContainer`;
`nextGid` allocates fresh identities; `visualLog` and `selectionEvents` are
ghost logs of `updateShapeVisuals` calls and selection-changed
notifications. -/
structure ManagerState where
  shapes : ShapeMap
  selectedShapes : List String
  shapesInScene : List String
  resizeHandles : List Handle
  isDragging : Bool
  dragOffset : Coordinate
  isResizing : Bool
  resizeHandleIndex : ℤ
  activeShapeId : Option String
  spatialIndex : Option (List IndexItem)
  sceneGids : Finset ℕ
  nextGid : ℕ
  visualLog : List (String × Bool)
  selectionEvents : List (List String)
deriving DecidableEq

/-- The state right after the constructor. -/
def initialState : ManagerState where
  shapes := []
  selectedShapes := []
  shapesInScene := []
  resizeHandles := []
  isDragging := false
  dragOffset := ⟨0, 0⟩
  isResizing := false
  resizeHandleIndex := -1
  activeShapeId := none
  spatialIndex := none
  sceneGids := ∅
  nextGid := 0
  visualLog := []
  selectionEvents := []

/-- `addShape` (ShapeManager.ts lines 166-195): creates the `Graphics`
object (modelled by a fresh `gid`) and registers the entry with
`inScene = false`, deliberately not attaching it — culling decides
attachment. -/
def addShape (s : ManagerState) (sh : Shape) : ManagerState :=
  { s with
    shapes := mapSet s.shapes sh.id ⟨s.nextGid, sh, false⟩
    nextGid := s.nextGid + 1 }

/-- `buildSpatialIndex` (lines 225-242): bulk-computes every shape's
bounding box and replaces the index wholesale. -/
def buildSpatialIndex (s : ManagerState) : ManagerState :=
  { s with
    spatialIndex :=
      some (s.shapes.map (fun p => ⟨calculateShapeBounds p.2.shape, p.2.shape.id⟩)) }

/-- `removeShape` (lines 244-258): detaches and destroys the shape's
graphics and deletes the map entry.  The `labels` branch is dead (the map
is never populated).  Note: `resizeHandles`, `selectedShapes`,
`shapesInScene` and the spatial index are untouched — faithful to the
source. -/
def removeShape (s : ManagerState) (id : String) : ManagerState :=
  match mapGet s.shapes id with
  | some e =>
    { s with
      shapes := mapDelete s.shapes id
      sceneGids := s.sceneGids.erase e.gid }
  | none => s

/-- `clear` (lines 260-268): destroys all graphics, empties the shapes map,
`shapesInScene` and the containers.  `resizeHandles`, `selectedShapes` and
the spatial index are untouched — faithful to the source. -/
def clear (s : ManagerState) : ManagerState :=
  { s with
    shapes := []
    shapesInScene := []
    sceneGids := ∅ }

/-- `updateShapeVisuals` (lines 284-355): redraws a shape with or without
the selection highlight; a missing id is a no-op.  Only its occurrence is
observable in this model, recorded in the ghost `visualLog`. -/
def updateShapeVisuals (s : ManagerState) (id : String) (selected : Bool) :
    ManagerState :=
  match mapGet s.shapes id with
  | none => s
  | some _ => { s with visualLog := s.visualLog ++ [(id, selected)] }

/-- `clearResizeHandles` (lines 427-431). -/
def clearResizeHandles (s : ManagerState) : ManagerState :=
  { s with resizeHandles := [] }

/-- The four diagonal directions used for point-shape handles. -/
def handleDirections : List (ℚ × ℚ) := [(-1, -1), (1, -1), (1, 1), (-1, 1)]

/-- `createResizeHandles` (lines 433-486): one handle per polygon vertex,
four diagonal handles for a point, none for a line. -/
def createResizeHandles (s : ManagerState) (shapeId : String) : ManagerState :=
  let s := clearResizeHandles s
  match mapGet s.shapes shapeId with
  | none => s
  | some e =>
    match e.shape.geom with
    | .polygon cs =>
      { s with resizeHandles := cs.enum.map (fun p => ⟨p.1, shapeId, p.2, true⟩) }
    | .point c r =>
      let radius := radiusOrDefault r
      { s with resizeHandles :=
          handleDirections.enum.map (fun p =>
            ⟨p.1, shapeId, ⟨c.x + p.2.1 * radius, c.y + p.2.2 * radius⟩, true⟩) }
    | .line _ => s

/-- `updateResizeHandles` (lines 488-516): repositions handle `i` to
vertex `i` (polygon) or diagonal `i` (point), for the indices both lists
share. -/
def updateResizeHandles (s : ManagerState) (shapeId : String) : ManagerState :=
  match mapGet s.shapes shapeId with
  | none => s
  | some e =>
    match e.shape.geom with
    | .polygon cs =>
      { s with resizeHandles :=
          s.resizeHandles.enum.map (fun p =>
            match cs[p.1]? with
            | some c => { p.2 with pos := c }
            | none => p.2) }
    | .point c r =>
      let radius := radiusOrDefault r
      { s with resizeHandles :=
          s.resizeHandles.enum.map (fun p =>
            match handleDirections[p.1]? with
            | some d => { p.2 with pos := ⟨c.x + d.1 * radius, c.y + d.2 * radius⟩ }
            | none => p.2) }
    | .line _ => s

/-- Emit the selection-changed notification (`Array.from(selectedShapes)`). -/
def notifySelection (s : ManagerState) : ManagerState :=
  { s with selectionEvents := s.selectionEvents ++ [s.selectedShapes] }

/-- `selectShape` (lines 357-381).  `enableResize` only registers pointer
handlers and has no modelled state effect. -/
def selectShape (s : ManagerState) (id : String) (multiSelect : Bool) :
    ManagerState :=
  let s :=
    if multiSelect then s
    else
      let s := s.selectedShapes.foldl (fun st sel => updateShapeVisuals st sel false) s
      let s := { s with selectedShapes := [] }
      clearResizeHandles s
  let s := { s with selectedShapes := setAdd s.selectedShapes id }
  let s := updateShapeVisuals s id true
  let s :=
    if s.selectedShapes.length = 1 then createResizeHandles s id
    else clearResizeHandles s
  notifySelection s

/-- `deselectShape` (lines 383-401). -/
def deselectShape (s : ManagerState) (id : String) : ManagerState :=
  if id ∈ s.selectedShapes then
    let s := { s with selectedShapes := setDelete s.selectedShapes id }
    let s := updateShapeVisuals s id false
    let s :=
      if s.selectedShapes.length = 1 then
        match s.selectedShapes.head? with
        | some remainingId => createResizeHandles s remainingId
        | none => s
      else clearResizeHandles s
    notifySelection s
  else s

/-- `clearSelection` (lines 403-413). -/
def clearSelection (s : ManagerState) : ManagerState :=
  let s := s.selectedShapes.foldl (fun st sel => updateShapeVisuals st sel false) s
  let s := { s with selectedShapes := [] }
  let s := clearResizeHandles s
  notifySelection s

/-- Write a polygon vertex at a (possibly negative) index.  The source
assigns `coordinates[idx].x/.y` directly; an out-of-range index would fault
in JavaScript and is modelled as a no-op (no claim reaches that case). -/
def setVertex (cs : List Coordinate) (i : ℤ) (c : Coordinate) : List Coordinate :=
  if 0 ≤ i ∧ i.toNat < cs.length then cs.set i.toNat c else cs

/-- Translate every coordinate by `(dx, dy)`. -/
def translateCoords (cs : List Coordinate) (dx dy : ℚ) : List Coordinate :=
  cs.map (fun c => ⟨c.x + dx, c.y + dy⟩)

/-- `handlePointerMove` (lines 557-610).  `sqrtFn` stands for `Math.sqrt`
(used only to recompute a point's radius); `localPos` is the pointer
position already converted to the container's local frame (the source does
this with `toLocal`).  Dragging an empty polygon/line would fault in the
source on `coordinates[0]`; modelled as a no-op (no claim reaches it). -/
def handlePointerMove (sqrtFn : ℚ → ℚ) (s : ManagerState) (localPos : Coordinate) :
    ManagerState :=
  match s.activeShapeId with
  | none => s
  | some aid =>
    if s.isDragging then
      match mapGet s.shapes aid with
      | none => s
      | some e =>
        let s1 :=
          match e.shape.geom with
          | .polygon cs =>
            match cs.head? with
            | none => s
            | some c0 =>
              let dx := localPos.x - s.dragOffset.x - c0.x
              let dy := localPos.y - s.dragOffset.y - c0.y
              let newGeom := ShapeGeom.polygon (translateCoords cs dx dy)
              let e2 := { e with shape := { e.shape with geom := newGeom } }
              { s with shapes := mapSet s.shapes aid e2 }
          | .point _ r =>
            let newCenter : Coordinate :=
              ⟨localPos.x - s.dragOffset.x, localPos.y - s.dragOffset.y⟩
            let e2 := { e with shape := { e.shape with geom := .point newCenter r } }
            { s with shapes := mapSet s.shapes aid e2 }
          | .line ps =>
            match ps.head? with
            | none => s
            | some p0 =>
              let dx := localPos.x - s.dragOffset.x - p0.x
              let dy := localPos.y - s.dragOffset.y - p0.y
              let newGeom := ShapeGeom.line (translateCoords ps dx dy)
              let e2 := { e with shape := { e.shape with geom := newGeom } }
              { s with shapes := mapSet s.shapes aid e2 }
        updateResizeHandles (updateShapeVisuals s1 aid true) aid
    else if s.isResizing then
      match mapGet s.shapes aid with
      | none => s
      | some e =>
        let s1 :=
          match e.shape.geom with
          | .polygon cs =>
            let newGeom := ShapeGeom.polygon (setVertex cs s.resizeHandleIndex localPos)
            let e2 := { e with shape := { e.shape with geom := newGeom } }
            { s with shapes := mapSet s.shapes aid e2 }
          | .point c _ =>
            let dx := localPos.x - c.x
            let dy := localPos.y - c.y
            let newRadius := sqrtFn (dx * dx + dy * dy)
            let newGeom := ShapeGeom.point c (some (max 3 newRadius))
            let e2 := { e with shape := { e.shape with geom := newGeom } }
            { s with shapes := mapSet s.shapes aid e2 }
          | .line _ => s
        updateResizeHandles (updateShapeVisuals s1 aid true) aid
    else s

/-- `handlePointerUp` (lines 612-617): unconditionally returns to `Idle`. -/
def handlePointerUp (s : ManagerState) : ManagerState :=
  { s with
    isDragging := false
    isResizing := false
    activeShapeId := none
    resizeHandleIndex := -1 }

/-- Viewport bounds `{x, y, width, height}` passed to `cullShapes`. -/
structure Viewport where
  x : ℚ
  y : ℚ
  width : ℚ
  height : ℚ
deriving DecidableEq, Repr

/-- The viewport expanded by `BUFFER_PERCENT` of its width/height on each
axis (ShapeManager.ts lines 704-713). -/
def bufferedBox (vb : Viewport) : Box :=
  let bufferX := vb.width * BUFFER_PERCENT
  let bufferY := vb.height * BUFFER_PERCENT
  ⟨vb.x - bufferX, vb.y - bufferY,
   vb.x + vb.width + bufferX, vb.y + vb.height + bufferY⟩

/-- The LOD level derived from the viewport area (lines 700-735).  The
source computes `zoomOutFactor = Math.sqrt(viewportArea / BASE_AREA)` and
compares it with `LOD_LOW_THRESHOLD = 8` and `LOD_MEDIUM_THRESHOLD = 3`;
since the square root is monotone and the thresholds are nonnegative,
`zoomOutFactor > t` is equivalent to `viewportArea > t ^ 2 * BASE_AREA`,
which is the executable form used here.  The equivalence with the
`Real.sqrt` formulation is proved in `lodLevelOfArea_eq_sqrt`. -/
def lodLevelOfArea (viewportArea : ℚ) : ℕ :=
  if LOD_LOW_THRESHOLD ^ 2 * BASE_AREA < viewportArea then 2
  else if LOD_MEDIUM_THRESHOLD ^ 2 * BASE_AREA < viewportArea then 1
  else 0

/-- `zoomOutFactor = Math.sqrt(viewportArea / BASE_AREA)` (line 702),
idealised over the reals. -/
noncomputable def zoomOutFactor (vb : Viewport) : ℝ :=
  Real.sqrt (((vb.width * vb.height : ℚ) : ℝ) / ((BASE_AREA : ℚ) : ℝ))

/-- Bounding-box test against the query box, `none` (empty geometry, an
infinite inverted box in the source) intersecting nothing. -/
def boxOptIntersects (ob : Option Box) (q : Box) : Bool :=
  match ob with
  | some b => boxIntersects b q
  | none => false

/-- Accumulator of the reconcile pass of `cullShapes` (lines 738-769). -/
structure CullAcc where
  shapes : ShapeMap
  sceneGids : Finset ℕ
  shapesInScene : List String
  visible : ℕ
  added : ℕ
  removed : ℕ
  skipped : ℕ

/-- One iteration of the `this.shapes.forEach` reconcile loop.  Note that
the LOD-suppression branch does not remove the id from `shapesInScene`
(faithful to the source, which only touches that set in the plain
attach/detach branches). -/
def cullStep (cand : Finset String) (lod : ℕ) (acc : CullAcc)
    (p : String × ShapeEntry) : CullAcc :=
  let id := p.1
  let e := p.2
  if id ∈ cand then
    if 1 ≤ lod ∧ isLineShape e.shape = true then
      if e.inScene then
        { acc with
          shapes := acc.shapes ++ [(id, { e with inScene := false })]
          sceneGids := acc.sceneGids.erase e.gid
          visible := acc.visible + 1
          removed := acc.removed + 1
          skipped := acc.skipped + 1 }
      else
        { acc with
          shapes := acc.shapes ++ [(id, e)]
          visible := acc.visible + 1
          skipped := acc.skipped + 1 }
    else if e.inScene then
      { acc with
        shapes := acc.shapes ++ [(id, e)]
        visible := acc.visible + 1 }
    else
      { acc with
        shapes := acc.shapes ++ [(id, { e with inScene := true })]
        sceneGids := insert e.gid acc.sceneGids
        shapesInScene := setAdd acc.shapesInScene id
        visible := acc.visible + 1
        added := acc.added + 1 }
  else if e.inScene then
    { acc with
      shapes := acc.shapes ++ [(id, { e with inScene := false })]
      sceneGids := acc.sceneGids.erase e.gid
      shapesInScene := setDelete acc.shapesInScene id
      removed := acc.removed + 1 }
  else
    { acc with shapes := acc.shapes ++ [(id, e)] }

/-- Set the pixi `visible` flag of every resize handle. -/
def setHandlesVisible (s : ManagerState) (v : Bool) : ManagerState :=
  { s with resizeHandles := s.resizeHandles.map (fun h => { h with visible := v }) }

/-- Post-reconcile handle-visibility sync of `cullShapes` (lines 781-797):
handles follow the `inScene` flag of the active shape, else of the single
selected shape. -/
def syncHandleVisibility (s : ManagerState) : ManagerState :=
  match s.activeShapeId with
  | some aid =>
    match mapGet s.shapes aid with
    | some e => setHandlesVisible s e.inScene
    | none => s
  | none =>
    if s.selectedShapes.length = 1 then
      match s.selectedShapes.head? with
      | some selId =>
        match mapGet s.shapes selId with
        | some e => setHandlesVisible s e.inScene
        | none => s
      | none => s
    else s

/-- The metrics notification dispatched at the end of a cull pass
(lines 800-814); `cullTime` (wall-clock) is not modelled. -/
structure CullMetrics where
  count : ℕ
  total : ℕ
  checked : ℕ
  added : ℕ
  removed : ℕ
  inScene : ℕ
  skippedByLOD : ℕ
  lodLevel : ℕ
deriving DecidableEq, Repr

/-- `cullShapes` (lines 692-815): build the index on demand if absent,
compute the LOD level and buffered bounds, query the index for candidate
ids, reconcile every shape's attach state, sync handle visibility, and
return the metrics notification. -/
def cullShapes (s0 : ManagerState) (vb : Viewport) : ManagerState × CullMetrics :=
  let s := if s0.spatialIndex.isNone then buildSpatialIndex s0 else s0
  let idx := s.spatialIndex.getD []
  let viewportArea := vb.width * vb.height
  let lod := lodLevelOfArea viewportArea
  let buffered := bufferedBox vb
  let visibleItems := idx.filter (fun it => boxOptIntersects it.box buffered)
  let cand : Finset String := (visibleItems.map (fun it => it.id)).toFinset
  let acc0 : CullAcc := ⟨[], s.sceneGids, s.shapesInScene, 0, 0, 0, 0⟩
  let acc := s.shapes.foldl (cullStep cand lod) acc0
  let s1 := { s with
    shapes := acc.shapes
    sceneGids := acc.sceneGids
    shapesInScene := acc.shapesInScene }
  let s2 := syncHandleVisibility s1
  (s2, ⟨acc.visible, acc.shapes.length, cand.card, acc.added, acc.removed,
        acc.sceneGids.card, acc.skipped, lod⟩)

/-! ## The project importer (`parseIrrigationProject`, src/unnamed/part_001)

The robust importer variant: it guards every nesting level and skips (with a
console warning only) nodes lacking the minimum usable geometry.  A legacy
variant without those guards exists in `src/utils/jsonParser.ts`; the spec's
importer contract is the guarded one embedded here. -/

/-- A JSON scalar style value (`StyleValue.Value : string | number`). -/
inductive JsonVal where
  | str (s : String)
  | num (q : ℚ)
deriving DecidableEq, Repr

/-- JavaScript truthiness of a style value (`""` and `0` are falsy). -/
def jsonValTruthy : JsonVal → Bool
  | .str s => !(s == "")
  | .num q => !(q == 0)

/-- `String(v)`.  Rendering a number as a string differs from JavaScript's
decimal formatting; no claim depends on it. -/
def jsonValToString : JsonVal → String
  | .str s => s
  | .num q => toString q

/-- `Number(v)`.  A non-numeric string yields `NaN` in JavaScript, modelled
as `0`; no claim depends on it. -/
def jsonValToNum : JsonVal → ℚ
  | .str _ => 0
  | .num q => q

/-- `String(field.Value)` when the optional field's value is truthy,
else `none` (the source leaves the default in place). -/
def truthyString : Option JsonVal → Option String
  | some v => if jsonValTruthy v then some (jsonValToString v) else none
  | none => none

/-- `LateralDesignLineStyle` from `src/types/shapes.ts`; each `StyleValue`
wrapper is collapsed to its `Value`. -/
structure LateralLineStyle where
  PreHydraulicCalculationBorderColor : Option JsonVal := none
  PostHydraulicCalculationBorderColor : Option JsonVal := none
  PreHydraulicCalculationBorderWidth : Option JsonVal := none
  PostHydraulicCalculationBorderWidth : Option JsonVal := none
deriving DecidableEq, Repr

/-- `ExternalSnapshot` from `src/types/shapes.ts`. -/
structure ExternalSnapshot where
  BlockDesignFillColor : Option JsonVal := none
  BlockDesignBorderColor : Option JsonVal := none
  BlockDesignBorderWidth : Option JsonVal := none
  BlockDesignOpacity : Option JsonVal := none
  LateralDesignLineStyle : Option LateralLineStyle := none
deriving DecidableEq, Repr

/-- A `Lateral` node; `Layout` is optional to model the `!lateral.Layout`
guard. -/
structure Lateral where
  Index : ℤ
  Layout : Option (List (List ℚ))
deriving DecidableEq, Repr

/-- The `Laterals` wrapper object (`block.Laterals?.Laterals`). -/
structure LateralsBox where
  Laterals : Option (List Lateral)
deriving DecidableEq, Repr

/-- A `Block` node. -/
structure Block where
  Id : String
  Name : String
  Number : ℤ
  Coordinates : Option (List (List ℚ))
  Laterals : Option LateralsBox
  ExternalSnapshot : Option ExternalSnapshot
deriving DecidableEq, Repr

/-- A `SubArea` node. -/
structure SubArea where
  Id : String
  Name : String
  Number : ℤ
  Coordinates : Option (List (List ℚ))
  Blocks : Option (List Block)
deriving DecidableEq, Repr

/-- The root project document. -/
structure IrrigationProject where
  Id : String
  Name : String
  SubAreas : Option (List SubArea)
deriving DecidableEq, Repr

/-- `coordsArrayToCoordinate` (part_001 lines 3-8): `null` for fewer than
two entries, else `(x, -y)` (Y negated for screen coordinates).  The
`Number.isFinite` guards hold vacuously over the rationals. -/
def coordsArrayToCoordinate : List ℚ → Option Coordinate
  | a :: b :: _ => some ⟨a, -b⟩
  | _ => none

/-- The subarea polygon shape pushed by the importer (part_001 lines
34-45). -/
def subAreaShape (subArea : SubArea) (coordinates : List Coordinate) : Shape where
  id := "subarea-" ++ subArea.Id
  geom := .polygon coordinates
  style :=
    { fillColor := some "#FFFFFF", borderColor := some "#00CC00",
      borderWidth := some 2, opacity := some (3/10) }
  label := some ("SubArea " ++ toString subArea.Number)

/-- The lateral loop of the importer (part_001 lines 127-149): skip a
lateral whose layout is missing, shorter than 2, or filters down below 2
usable points; otherwise emit a line shape. -/
def parseLaterals (blockId : String) (lateralColor : String) (lateralWidth : ℚ)
    (lats : List Lateral) (shapes : List Shape) : List Shape :=
  lats.foldl (fun shapes lateral =>
    match lateral.Layout with
    | none => shapes
    | some layout =>
      if layout.length < 2 then shapes
      else
        let lateralPoints := layout.filterMap coordsArrayToCoordinate
        if lateralPoints.length < 2 then shapes
        else
          let sh : Shape :=
            { id := "lateral-" ++ blockId ++ "-" ++ toString lateral.Index
              geom := .line lateralPoints
              style := { borderColor := some lateralColor,
                         borderWidth := some lateralWidth } }
          shapes ++ [sh]) shapes

/-- The per-block body of the importer (part_001 lines 52-150): skip a
block whose raw coordinate list is missing or shorter than 3, extract the
style overrides from the `ExternalSnapshot` (with fixed defaults), skip if
fewer than 3 usable points survive filtering, else emit the block polygon
and walk its laterals. -/
def parseBlock (block : Block) (shapes : List Shape) : List Shape :=
  match block.Coordinates with
  | none => shapes
  | some rawCoords =>
    if rawCoords.length < 3 then shapes
    else
      let snap := block.ExternalSnapshot
      let fillColor :=
        (truthyString (snap.bind (fun es => es.BlockDesignFillColor))).getD "#FFFFFF"
      let borderColor :=
        (truthyString (snap.bind (fun es => es.BlockDesignBorderColor))).getD "#0038FF"
      let borderWidth :=
        ((snap.bind (fun es => es.BlockDesignBorderWidth)).map jsonValToNum).getD 1
      let opacity :=
        ((snap.bind (fun es => es.BlockDesignOpacity)).map
          (fun v => jsonValToNum v / 100)).getD (1/5)
      let blockCoordinates := rawCoords.filterMap coordsArrayToCoordinate
      if blockCoordinates.length < 3 then shapes
      else
        let sh : Shape :=
          { id := "block-" ++ block.Id
            geom := .polygon blockCoordinates
            style := { fillColor := some fillColor, borderColor := some borderColor,
                       borderWidth := some borderWidth, opacity := some opacity }
            label := some ("Block " ++ toString block.Number) }
        let shapes := shapes ++ [sh]
        match block.Laterals with
        | none => shapes
        | some lb =>
          match lb.Laterals with
          | none => shapes
          | some lats =>
            let ls := snap.bind (fun es => es.LateralDesignLineStyle)
            let lateralColor :=
              (((ls.bind (fun l => truthyString l.PreHydraulicCalculationBorderColor))).orElse
                (fun _ => ls.bind (fun l => truthyString l.PostHydraulicCalculationBorderColor))).getD
                "#0038FF"
            let lateralWidth :=
              (((ls.bind (fun l => l.PreHydraulicCalculationBorderWidth)).map jsonValToNum).orElse
                (fun _ => (ls.bind (fun l => l.PostHydraulicCalculationBorderWidth)).map jsonValToNum)).getD
                1
            parseLaterals block.Id lateralColor lateralWidth lats shapes

/-- `parseIrrigationProject` (src/unnamed/part_001 lines 10-154): `null`
inputs yield the empty list; each subarea is skipped unless its boundary
has at least 3 raw and 3 usable coordinates, then its blocks are walked.
The defensive `!subArea` / `!block` element checks of the source are
vacuous here since list elements are not nullable in the model. -/
def parseIrrigationProject (json : Option IrrigationProject) : List Shape :=
  match json with
  | none => []
  | some j =>
    match j.SubAreas with
    | none => []
    | some subAreas =>
      subAreas.foldl (fun shapes subArea =>
        match subArea.Coordinates with
        | none => shapes
        | some rawCoords =>
          if rawCoords.length < 3 then shapes
          else
            let coordinates := rawCoords.filterMap coordsArrayToCoordinate
            if coordinates.length < 3 then shapes
            else
              let shapes := shapes ++ [subAreaShape subArea coordinates]
              match subArea.Blocks with
              | none => shapes
              | some blocks =>
                blocks.foldl (fun shapes block => parseBlock block shapes) shapes) []

/-- Minimum-geometry guarantee: polygons carry at least 3 points, lines at
least 2. -/
def hasMinGeometry (s : Shape) : Bool :=
  match s.geom with
  | .polygon cs => decide (3 ≤ cs.length)
  | .line ps => decide (2 ≤ ps.length)
  | .point _ _ => true

/-! ## The synthetic generator (`generateStressTestShapes`, src/unnamed/part_000)

`Math.random()` is modelled as an explicit stream `rand : Nat -> Q`
consumed in call order, and `Math.sqrt` as a parameter `sqrtFn` (it only
feeds the block-size arithmetic).  JavaScript's `x / 0 = Infinity` inside
the block-count arithmetic differs from the rational `x / 0 = 0`; those
quantities only size loops that no claim's inputs reach. -/

/-- `StressTestConfig` (part_000 lines 3-9), with the default base
offsets. -/
structure StressTestConfig where
  targetShapeCount : ℕ
  areaWidth : ℚ
  areaHeight : ℚ
  baseX : ℚ := 611000
  baseY : ℚ := 4205000
deriving DecidableEq, Repr

/-- The cyclic block color palette (part_000 lines 28-37),
`(fill, border)` pairs. -/
def blockColors : List (String × String) :=
  [("#FFEBEE", "#F44336"), ("#E3F2FD", "#2196F3"), ("#E8F5E9", "#4CAF50"),
   ("#FFF3E0", "#FF9800"), ("#F3E5F5", "#9C27B0"), ("#E0F7FA", "#00BCD4"),
   ("#FFF9C4", "#FFEB3B"), ("#FCE4EC", "#E91E63")]

/-- Mutable state threaded through the generator's loops: the emitted
shapes, `shapeCount`, `subAreaIndex`, and the position in the random
stream. -/
structure GenState where
  shapes : List Shape
  shapeCount : ℕ
  subAreaIndex : ℕ
  randIdx : ℕ
deriving DecidableEq, Repr

/-- Loop-invariant generator context. -/
structure GenCtx where
  sqrtFn : ℚ → ℚ
  rand : ℕ → ℚ
  target : ℕ
  baseX : ℚ
  baseY : ℚ
  subAreaSize : ℚ
  blocksPerSubArea : ℤ
  lateralsPerBlock : ℤ

/-- The lateral loop (part_000 lines 125-145):
`for l; l < lateralsPerBlock && shapeCount < target`, with a redundant
break once the target is reached. -/
def lateralLoop (ctx : GenCtx) (idPrefix : String)
    (blockY startX endX spacing : ℚ) (lateralColor : String)
    (l remaining : ℕ) (st : GenState) : GenState :=
  match remaining with
  | 0 => st
  | r + 1 =>
    if st.shapeCount < ctx.target then
      let lateralY := blockY + ((l : ℚ) + 1) * spacing
      let sh : Shape :=
        { id := idPrefix ++ toString l
          geom := .line [⟨startX, -lateralY⟩, ⟨endX, -lateralY⟩]
          style := { borderColor := some lateralColor, borderWidth := some (1/2) } }
      let st := { st with shapes := st.shapes ++ [sh], shapeCount := st.shapeCount + 1 }
      if ctx.target ≤ st.shapeCount then st
      else lateralLoop ctx idPrefix blockY startX endX spacing lateralColor (l + 1) r st
    else st

/-- The inner block loop over `bCol` (part_000 lines 90-146):
`for bCol; bCol < blocksPerColInSubArea && shapeCount < target`. -/
def blockColLoop (ctx : GenCtx) (subAreaIndex bRow : ℕ)
    (subAreaX subAreaY blockSize : ℚ) (blocksPerColInSubArea : ℤ)
    (bCol remaining : ℕ) (st : GenState) : GenState :=
  match remaining with
  | 0 => st
  | r + 1 =>
    if st.shapeCount < ctx.target then
      let blockX := subAreaX + (bRow : ℚ) * blockSize + ctx.rand st.randIdx * 20
      let blockY := subAreaY + (bCol : ℚ) * blockSize + ctx.rand (st.randIdx + 1) * 20
      let blockW := blockSize - 50 + ctx.rand (st.randIdx + 2) * 30
      let blockH := blockSize - 50 + ctx.rand (st.randIdx + 3) * 30
      let st := { st with randIdx := st.randIdx + 4 }
      let colorIdx : ℤ :=
        ((subAreaIndex : ℤ) + (bRow : ℤ) * blocksPerColInSubArea + (bCol : ℤ)) %
          (blockColors.length : ℤ)
      let colorPair := (blockColors[colorIdx.toNat]?).getD ("#FFEBEE", "#F44336")
      let blockShape : Shape :=
        { id := "block-" ++ toString subAreaIndex ++ "-" ++ toString bRow ++ "-" ++ toString bCol
          geom := .polygon
            [⟨blockX, -blockY⟩, ⟨blockX + blockW, -blockY⟩,
             ⟨blockX + blockW, -(blockY + blockH)⟩, ⟨blockX, -(blockY + blockH)⟩,
             ⟨blockX, -blockY⟩]
          style := { fillColor := some colorPair.1, borderColor := some colorPair.2,
                     borderWidth := some 1, opacity := some (1/5) }
          label := some ("Block " ++ toString ((bRow : ℤ) * blocksPerColInSubArea + (bCol : ℤ) + 1)) }
      let st := { st with shapes := st.shapes ++ [blockShape], shapeCount := st.shapeCount + 1 }
      let lateralSpacing := blockH / ((ctx.lateralsPerBlock : ℚ) + 1)
      let startX := blockX + 10
      let endX := blockX + blockW - 10
      let idPrefix :=
        "lateral-" ++ toString subAreaIndex ++ "-" ++ toString bRow ++ "-" ++
          toString bCol ++ "-"
      let st := lateralLoop ctx idPrefix blockY startX endX lateralSpacing colorPair.2
        0 ctx.lateralsPerBlock.toNat st
      blockColLoop ctx subAreaIndex bRow subAreaX subAreaY blockSize blocksPerColInSubArea
        (bCol + 1) r st
    else st

/-- The outer block loop over `bRow` (part_000 lines 89-147). -/
def blockRowLoop (ctx : GenCtx) (subAreaIndex : ℕ)
    (subAreaX subAreaY blockSize : ℚ) (blocksPerColInSubArea : ℤ)
    (bRow remaining : ℕ) (st : GenState) : GenState :=
  match remaining with
  | 0 => st
  | r + 1 =>
    if st.shapeCount < ctx.target then
      let st := blockColLoop ctx subAreaIndex bRow subAreaX subAreaY blockSize
        blocksPerColInSubArea 0 blocksPerColInSubArea.toNat st
      blockRowLoop ctx subAreaIndex subAreaX subAreaY blockSize blocksPerColInSubArea
        (bRow + 1) r st
    else st

/-- The subarea polygon pushed per grid cell (part_000 lines 62-81). -/
def genSubAreaShape (subAreaX subAreaY subAreaWidth subAreaHeight : ℚ)
    (subAreaIndex : ℕ) : Shape :=
  { id := "subarea-" ++ toString subAreaIndex
    geom := .polygon
      [⟨subAreaX, -subAreaY⟩, ⟨subAreaX + subAreaWidth, -subAreaY⟩,
       ⟨subAreaX + subAreaWidth, -(subAreaY + subAreaHeight)⟩,
       ⟨subAreaX, -(subAreaY + subAreaHeight)⟩, ⟨subAreaX, -subAreaY⟩]
    style := { fillColor := some "#FFFFFF", borderColor := some "#00CC00",
               borderWidth := some 2, opacity := some (3/10) }
    label := some ("SubArea " ++ toString (subAreaIndex + 1)) }

/-- The subarea column loop (part_000 lines 55-151): emit the subarea
polygon, run the block loops, bump `subAreaIndex`, and break once the
target is reached. -/
def subAreaColLoop (ctx : GenCtx) (row : ℕ) (col remaining : ℕ) (st : GenState) :
    GenState :=
  match remaining with
  | 0 => st
  | r + 1 =>
    let subAreaX := ctx.baseX + (row : ℚ) * ctx.subAreaSize
    let subAreaY := ctx.baseY + (col : ℚ) * ctx.subAreaSize
    let subAreaWidth := ctx.subAreaSize + (ctx.rand st.randIdx - 1/2) * 200
    let subAreaHeight := ctx.subAreaSize + (ctx.rand (st.randIdx + 1) - 1/2) * 200
    let st := { st with randIdx := st.randIdx + 2 }
    let saShape : Shape :=
      genSubAreaShape subAreaX subAreaY subAreaWidth subAreaHeight st.subAreaIndex
    let subAreaIndex := st.subAreaIndex
    let st := { st with shapes := st.shapes ++ [saShape], shapeCount := st.shapeCount + 1 }
    let blockSize : ℤ := ⌊subAreaWidth / ctx.sqrtFn ((ctx.blocksPerSubArea : ℚ))⌋
    let blocksPerRowInSubArea : ℤ := ⌊subAreaWidth / (blockSize : ℚ)⌋
    let blocksPerColInSubArea : ℤ :=
      ⌈(ctx.blocksPerSubArea : ℚ) / (blocksPerRowInSubArea : ℚ)⌉
    let st := blockRowLoop ctx subAreaIndex subAreaX subAreaY (blockSize : ℚ)
      blocksPerColInSubArea 0 blocksPerRowInSubArea.toNat st
    let st := { st with subAreaIndex := st.subAreaIndex + 1 }
    if ctx.target ≤ st.shapeCount then st
    else subAreaColLoop ctx row (col + 1) r st

/-- The subarea row loop (part_000 lines 54-153). -/
def subAreaRowLoop (ctx : GenCtx) (subAreasPerCol : ℤ) (row remaining : ℕ)
    (st : GenState) : GenState :=
  match remaining with
  | 0 => st
  | r + 1 =>
    let st := subAreaColLoop ctx row 0 subAreasPerCol.toNat st
    if ctx.target ≤ st.shapeCount then st
    else subAreaRowLoop ctx subAreasPerCol (row + 1) r st

/-- `generateStressTestShapes` (src/unnamed/part_000 lines 16-157). -/
def generateStressTestShapes (sqrtFn : ℚ → ℚ) (rand : ℕ → ℚ)
    (config : StressTestConfig) : List Shape :=
  let subAreaSize : ℚ := 1500
  let subAreasPerRow : ℤ := ⌈config.areaWidth / subAreaSize⌉
  let subAreasPerCol : ℤ := ⌈config.areaHeight / subAreaSize⌉
  let totalSubAreas : ℤ := subAreasPerRow * subAreasPerCol
  let blocksPerSubArea : ℤ :=
    max 3 ⌊sqrtFn ((config.targetShapeCount : ℚ) / (totalSubAreas : ℚ) / 50)⌋
  let lateralsPerBlock : ℤ :=
    ⌈(config.targetShapeCount : ℚ) / ((totalSubAreas : ℚ) * (blocksPerSubArea : ℚ))⌉
  let ctx : GenCtx :=
    ⟨sqrtFn, rand, config.targetShapeCount, config.baseX, config.baseY,
     subAreaSize, blocksPerSubArea, lateralsPerBlock⟩
  (subAreaRowLoop ctx subAreasPerCol 0 subAreasPerRow.toNat ⟨[], 0, 0, 0⟩).shapes

/-- The load sequence of `PixiCanvas` (src/unnamed/part_002): add every
shape to a fresh manager, then build the spatial index once. -/
def ingestAndIndex (shapes : List Shape) : ManagerState :=
  buildSpatialIndex (shapes.foldl addShape initialState)

/-! ## Specification-side helpers and invariants -/

/-- The spatial index a cull pass queries: the stored one, or the one the
on-demand `buildSpatialIndex` records when none was built yet. -/
def indexOf (s : ManagerState) : List IndexItem :=
  match s.spatialIndex with
  | some idx => idx
  | none => s.shapes.map (fun p => ⟨calculateShapeBounds p.2.shape, p.2.shape.id⟩)

/-- The candidate-visible id set of a cull pass: ids of index items whose
recorded box intersects the buffered viewport. -/
def cullCand (s : ManagerState) (vb : Viewport) : Finset String :=
  (((indexOf s).filter (fun it => boxOptIntersects it.box (bufferedBox vb))).map
    (fun it => it.id)).toFinset

/-- The `inScene` value an entry holds after a reconcile pass: a candidate
that is not an LOD-suppressed line. -/
def cullFlag (cand : Finset String) (lod : ℕ) (id : String) (e : ShapeEntry) : Bool :=
  decide (id ∈ cand ∧ ¬(1 ≤ lod ∧ isLineShape e.shape = true))

/-- The store/scene invariant of claim C10, together with the auxiliary
facts that make it inductive: every entry is attached iff its graphics is a
child of the shapes container, graphics identities are below the allocator
counter (so are the attached ones), and entries have pairwise distinct
graphics and pairwise distinct keys. -/
def WF (s : ManagerState) : Prop :=
  (∀ p ∈ s.shapes, p.2.inScene = true ↔ p.2.gid ∈ s.sceneGids) ∧
  (∀ p ∈ s.shapes, p.2.gid < s.nextGid) ∧
  (∀ g ∈ s.sceneGids, g < s.nextGid) ∧
  (s.shapes.map (fun p => p.2.gid)).Nodup ∧
  (s.shapes.map (fun p => p.1)).Nodup

/-- `dx*dx + dy*dy` of `handlePointerMove`'s point-resize branch. -/
def sqDist (c p : Coordinate) : ℚ :=
  (p.x - c.x) * (p.x - c.x) + (p.y - c.y) * (p.y - c.y)

/-! ## Concrete fixtures used by witnesses and counterexamples -/

/-- A triangle with id "A". -/
def triangleA : Shape :=
  { id := "A", geom := .polygon [⟨0, 0⟩, ⟨10, 0⟩, ⟨0, 10⟩], style := {} }

/-- A triangle with id "B". -/
def triangleB : Shape :=
  { id := "B", geom := .polygon [⟨100, 100⟩, ⟨110, 100⟩, ⟨100, 110⟩], style := {} }

/-- A point shape with id "P". -/
def pointP : Shape :=
  { id := "P", geom := .point ⟨0, 0⟩ (some 5), style := {} }

/-- A manager holding the two triangles. -/
def stAB : ManagerState := addShape (addShape initialState triangleA) triangleB

/-- A manager holding triangle "A" with its index built. -/
def stIng : ManagerState := ingestAndIndex [triangleA]

/-- A small viewport around the origin. -/
def vbTest : Viewport := ⟨-50, -50, 200, 200⟩

/-- A viewport covering the whole generated world (with its buffer). -/
def vbWorld : Viewport :=
  { x := -10000000, y := -10000000, width := 20000000, height := 20000000 }

/-- Triangle "A" selected (handles built). -/
def stSel : ManagerState := selectShape (addShape initialState triangleA) "A" false

/-- A manager resizing point "P". -/
def stResize : ManagerState :=
  { addShape initialState pointP with isResizing := true, activeShapeId := some "P" }

/-- A manager dragging a shape id that is not in the store. -/
def stGhostDrag : ManagerState :=
  { initialState with isDragging := true, activeShapeId := some "ghost" }

/-- Generator configuration with a target of one shape. -/
def cfgOne : StressTestConfig := { targetShapeCount := 1, areaWidth := 1500, areaHeight := 1500 }

/-- A stand-in for `Math.sqrt` returning 0 everywhere. -/
def sqrtZero : ℚ → ℚ := fun _ => 0

/-- A stand-in for `Math.sqrt` returning 5 everywhere. -/
def sqrtFive : ℚ → ℚ := fun _ => 5

/-- A constant `Math.random` stream. -/
def randHalf : ℕ → ℚ := fun _ => 1/2

/-- Scenario B: a block node with an empty coordinate list. -/
def scenarioBlockEmpty : Block :=
  { Id := "B1", Name := "b1", Number := 1, Coordinates := some [],
    Laterals := none, ExternalSnapshot := none }

/-- Scenario B: a sibling well-formed block node. -/
def scenarioBlockOk : Block :=
  { Id := "B2", Name := "b2", Number := 2,
    Coordinates := some [[0, 0], [10, 0], [0, 10], [0, 0]],
    Laterals := none, ExternalSnapshot := none }

/-- Scenario B: the subarea holding both blocks. -/
def scenarioSubArea : SubArea :=
  { Id := "SA", Name := "sa", Number := 1,
    Coordinates := some [[0, 0], [100, 0], [0, 100]],
    Blocks := some [scenarioBlockEmpty, scenarioBlockOk] }

/-- Scenario B: the project document. -/
def scenarioProject : IrrigationProject :=
  { Id := "P", Name := "p", SubAreas := some [scenarioSubArea] }

/-- The first shape the importer derives from `scenarioProject`. -/
def scenarioHeadShape : Shape :=
  { id := "subarea-SA",
    geom := .polygon [⟨0, 0⟩, ⟨100, 0⟩, ⟨0, -100⟩],
    style := { fillColor := some "#FFFFFF", borderColor := some "#00CC00",
               borderWidth := some 2, opacity := some (3/10) },
    label := some "SubArea 1" }

/-! ## Basic lemmas -/

theorem entry_set_inScene_self {e : ShapeEntry} {b : Bool} (h : e.inScene = b) :
    { e with inScene := b } = e := by
  cases e
  cases h
  rfl

theorem cullFlag_set_inScene (cand : Finset String) (lod : ℕ) (id : String)
    (e : ShapeEntry) (b : Bool) :
    cullFlag cand lod id { e with inScene := b } = cullFlag cand lod id e := rfl

theorem syncHandleVisibility_eq (s : ManagerState) :
    ∃ hl, syncHandleVisibility s = { s with resizeHandles := hl } := by
  unfold syncHandleVisibility setHandlesVisible
  split
  · split
    · exact ⟨_, rfl⟩
    · exact ⟨s.resizeHandles, rfl⟩
  · split
    · split
      · split
        · exact ⟨_, rfl⟩
        · exact ⟨s.resizeHandles, rfl⟩
      · exact ⟨s.resizeHandles, rfl⟩
    · exact ⟨s.resizeHandles, rfl⟩

theorem syncHandleVisibility_shapes (s : ManagerState) :
    (syncHandleVisibility s).shapes = s.shapes := by
  obtain ⟨hl, h⟩ := syncHandleVisibility_eq s
  rw [h]

theorem syncHandleVisibility_sceneGids (s : ManagerState) :
    (syncHandleVisibility s).sceneGids = s.sceneGids := by
  obtain ⟨hl, h⟩ := syncHandleVisibility_eq s
  rw [h]

theorem syncHandleVisibility_spatialIndex (s : ManagerState) :
    (syncHandleVisibility s).spatialIndex = s.spatialIndex := by
  obtain ⟨hl, h⟩ := syncHandleVisibility_eq s
  rw [h]

theorem syncHandleVisibility_nextGid (s : ManagerState) :
    (syncHandleVisibility s).nextGid = s.nextGid := by
  obtain ⟨hl, h⟩ := syncHandleVisibility_eq s
  rw [h]

theorem cullStep_shapes (cand : Finset String) (lod : ℕ) (acc : CullAcc)
    (p : String × ShapeEntry) :
    (cullStep cand lod acc p).shapes =
      acc.shapes ++ [(p.1, { p.2 with inScene := cullFlag cand lod p.1 p.2 })] := by
  rcases p with ⟨id, e⟩
  unfold cullStep cullFlag
  by_cases h1 : id ∈ cand
  · by_cases h2 : 1 ≤ lod ∧ isLineShape e.shape = true
    · by_cases h3 : e.inScene
      · simp [h1, h2, h3]
      · simp [h1, h2, h3, entry_set_inScene_self (Bool.not_eq_true e.inScene ▸ h3)]
    · by_cases h3 : e.inScene
      · simp [h1, h2, h3, entry_set_inScene_self h3]
      · simp [h1, h2, h3]
  · by_cases h3 : e.inScene
    · simp [h1, h3]
    · simp [h1, h3, entry_set_inScene_self (Bool.not_eq_true e.inScene ▸ h3)]

theorem foldl_cullStep_shapes (cand : Finset String) (lod : ℕ) (l : ShapeMap)
    (acc : CullAcc) :
    (l.foldl (cullStep cand lod) acc).shapes =
      acc.shapes ++ l.map (fun p => (p.1, { p.2 with inScene := cullFlag cand lod p.1 p.2 })) := by
  induction l generalizing acc with
  | nil => simp
  | cons p t ih =>
    simp only [List.foldl_cons, List.map_cons, ih, cullStep_shapes]
    simp

theorem cullStep_stable (cand : Finset String) (lod : ℕ) (acc : CullAcc)
    (p : String × ShapeEntry) (h : p.2.inScene = cullFlag cand lod p.1 p.2) :
    (cullStep cand lod acc p).added = acc.added ∧
      (cullStep cand lod acc p).removed = acc.removed := by
  rcases p with ⟨id, e⟩
  unfold cullFlag at h
  unfold cullStep
  by_cases h1 : id ∈ cand
  · by_cases h2 : 1 ≤ lod ∧ isLineShape e.shape = true
    · have h3 : e.inScene = false := by simp [h1, h2] at h; exact h
      simp [h1, h2, h3]
    · have h3 : e.inScene = true := by simp [h1, h2] at h; exact h
      simp [h1, h2, h3]
  · have h3 : e.inScene = false := by simp [h1] at h; exact h
    simp [h1, h3]

theorem foldl_cullStep_stable (cand : Finset String) (lod : ℕ) (l : ShapeMap)
    (acc : CullAcc) (h : ∀ p ∈ l, p.2.inScene = cullFlag cand lod p.1 p.2) :
    (l.foldl (cullStep cand lod) acc).added = acc.added ∧
      (l.foldl (cullStep cand lod) acc).removed = acc.removed := by
  induction l generalizing acc with
  | nil => exact ⟨rfl, rfl⟩
  | cons p t ih =>
    have hp := h p (List.mem_cons_self p t)
    have ht : ∀ q ∈ t, q.2.inScene = cullFlag cand lod q.1 q.2 :=
      fun q hq => h q (List.mem_cons_of_mem p hq)
    obtain ⟨ha, hr⟩ := cullStep_stable cand lod acc p hp
    obtain ⟨ha2, hr2⟩ := ih (cullStep cand lod acc p) ht
    exact ⟨ha2.trans ha, hr2.trans hr⟩

theorem cullShapes_shapes (s : ManagerState) (vb : Viewport) :
    (cullShapes s vb).1.shapes =
      s.shapes.map (fun p => (p.1,
        { p.2 with inScene :=
            cullFlag (cullCand s vb) (lodLevelOfArea (vb.width * vb.height)) p.1 p.2 })) := by
  cases h : s.spatialIndex with
  | none =>
    simp [cullShapes, h, buildSpatialIndex, syncHandleVisibility_shapes,
      foldl_cullStep_shapes, cullCand, indexOf]
  | some idx =>
    simp [cullShapes, h, syncHandleVisibility_shapes,
      foldl_cullStep_shapes, cullCand, indexOf]

theorem cullShapes_spatialIndex (s : ManagerState) (vb : Viewport) :
    (cullShapes s vb).1.spatialIndex = some (indexOf s) := by
  cases h : s.spatialIndex with
  | none =>
    simp [cullShapes, h, buildSpatialIndex, syncHandleVisibility_spatialIndex, indexOf]
  | some idx =>
    simp [cullShapes, h, syncHandleVisibility_spatialIndex, indexOf]

theorem cullShapes_lodLevel (s : ManagerState) (vb : Viewport) :
    (cullShapes s vb).2.lodLevel = lodLevelOfArea (vb.width * vb.height) := by
  cases h : s.spatialIndex with
  | none => simp [cullShapes, h]
  | some idx => simp [cullShapes, h]

theorem cullShapes_stable (s : ManagerState) (vb : Viewport)
    (h : ∀ p ∈ s.shapes,
      p.2.inScene = cullFlag (cullCand s vb) (lodLevelOfArea (vb.width * vb.height)) p.1 p.2) :
    (cullShapes s vb).2.added = 0 ∧ (cullShapes s vb).2.removed = 0 := by
  cases hidx : s.spatialIndex with
  | none =>
    have h2 := h
    simp only [cullCand, indexOf, hidx] at h2
    simpa [cullShapes, hidx, buildSpatialIndex] using
      foldl_cullStep_stable _ _ s.shapes _ h2
  | some idx =>
    have h2 := h
    simp only [cullCand, indexOf, hidx] at h2
    simpa [cullShapes, hidx] using
      foldl_cullStep_stable _ _ s.shapes _ h2

theorem indexOf_cullShapes (s : ManagerState) (vb : Viewport) :
    indexOf (cullShapes s vb).1 = indexOf s := by
  unfold indexOf
  rw [cullShapes_spatialIndex]
  rfl

theorem cullCand_cullShapes (s : ManagerState) (vb vb2 : Viewport) :
    cullCand (cullShapes s vb).1 vb2 = cullCand s vb2 := by
  unfold cullCand
  rw [indexOf_cullShapes s vb]

/-- C1: after `cullShapes vb`, every store entry whose `inScene` flag is
true has an entry in the recorded spatial index whose bounding box
intersects the viewport expanded by the buffer fraction, and whenever the
derived LOD level is at least 1 no line-type shape is in scene. -/
theorem cull_visible_subset (s : ManagerState) (vb : Viewport) (id : String)
    (e : ShapeEntry) (hmem : (id, e) ∈ (cullShapes s vb).1.shapes) :
    (e.inScene = true →
      ∃ it ∈ (cullShapes s vb).1.spatialIndex.getD [],
        it.id = id ∧ ∃ b, it.box = some b ∧ boxIntersects b (bufferedBox vb) = true) ∧
    (1 ≤ (cullShapes s vb).2.lodLevel → isLineShape e.shape = true →
      e.inScene = false) := by
  rw [cullShapes_shapes] at hmem
  obtain ⟨q, hq, heq⟩ := List.mem_map.mp hmem
  rw [Prod.mk.injEq] at heq
  obtain ⟨hid, he⟩ := heq
  have hin2 : e.inScene =
      cullFlag (cullCand s vb) (lodLevelOfArea (vb.width * vb.height)) q.1 q.2 := by
    rw [← he]
  have hsh : e.shape = q.2.shape := by rw [← he]
  constructor
  · intro hin
    have hflag : cullFlag (cullCand s vb) (lodLevelOfArea (vb.width * vb.height)) q.1 q.2
        = true := by rw [← hin2]; exact hin
    have hcand : q.1 ∈ cullCand s vb := by
      unfold cullFlag at hflag
      exact (of_decide_eq_true hflag).1
    unfold cullCand at hcand
    rw [List.mem_toFinset] at hcand
    obtain ⟨it, hit, hitid⟩ := List.mem_map.mp hcand
    rw [List.mem_filter] at hit
    obtain ⟨hitmem, hitbox⟩ := hit
    refine ⟨it, ?_, by rw [hitid, hid], ?_⟩
    · rw [cullShapes_spatialIndex]
      exact hitmem
    · unfold boxOptIntersects at hitbox
      cases hbox : it.box with
      | none => rw [hbox] at hitbox; exact absurd hitbox (by simp)
      | some b => rw [hbox] at hitbox; exact ⟨b, rfl, hitbox⟩
  · intro hlod hline
    rw [cullShapes_lodLevel] at hlod
    rw [hin2]
    unfold cullFlag
    simp only [decide_eq_false_iff_not]
    intro hcontra
    exact hcontra.2 ⟨hlod, by rw [← hsh]; exact hline⟩

unseal Rat.add Rat.mul Rat.inv Rat.sub in
/-- C1 witness: a concrete single-triangle store culled with a viewport
containing it. -/
theorem cull_visible_subset_witness :
    (("A", ⟨0, triangleA, true⟩) ∈ (cullShapes stIng vbTest).1.shapes) ∧
    ((∃ it ∈ (cullShapes stIng vbTest).1.spatialIndex.getD [],
        it.id = "A" ∧ ∃ b, it.box = some b ∧
          boxIntersects b (bufferedBox vbTest) = true) ∧
      (1 ≤ (cullShapes stIng vbTest).2.lodLevel →
        isLineShape (⟨0, triangleA, true⟩ : ShapeEntry).shape = true →
        (⟨0, triangleA, true⟩ : ShapeEntry).inScene = false)) := by
  have hmem : ("A", (⟨0, triangleA, true⟩ : ShapeEntry)) ∈
      (cullShapes stIng vbTest).1.shapes := by decide
  refine ⟨hmem, ?_⟩
  have h := cull_visible_subset stIng vbTest "A" ⟨0, triangleA, true⟩ hmem
  exact ⟨h.1 rfl, h.2⟩

/-- C2: an immediately repeated cull with the same viewport and no
intervening mutation attaches and detaches nothing: its `added` and
`removed` counters are 0 and every entry's `inScene` flag (indeed the whole
shapes map) is unchanged. -/
theorem cull_idempotent (s : ManagerState) (vb : Viewport) :
    (cullShapes (cullShapes s vb).1 vb).2.added = 0 ∧
    (cullShapes (cullShapes s vb).1 vb).2.removed = 0 ∧
    (cullShapes (cullShapes s vb).1 vb).1.shapes = (cullShapes s vb).1.shapes := by
  have hflags : ∀ p ∈ (cullShapes s vb).1.shapes,
      p.2.inScene = cullFlag (cullCand (cullShapes s vb).1 vb)
        (lodLevelOfArea (vb.width * vb.height)) p.1 p.2 := by
    intro p hp
    rw [cullShapes_shapes] at hp
    obtain ⟨q, hq, rfl⟩ := List.mem_map.mp hp
    rw [cullCand_cullShapes]
    rfl
  obtain ⟨ha, hr⟩ := cullShapes_stable (cullShapes s vb).1 vb hflags
  refine ⟨ha, hr, ?_⟩
  rw [cullShapes_shapes (cullShapes s vb).1 vb, cullCand_cullShapes,
    cullShapes_shapes s vb, List.map_map]
  rfl

theorem lt_zoomOutFactor_iff (vb : Viewport) (t : ℚ) (ht : 0 ≤ t) :
    ((t : ℝ) < zoomOutFactor vb) ↔ t ^ 2 * BASE_AREA < vb.width * vb.height := by
  unfold zoomOutFactor
  rw [Real.lt_sqrt (by exact_mod_cast ht), lt_div_iff₀ (by norm_num [BASE_AREA])]
  constructor
  · intro h
    exact_mod_cast h
  · intro h
    exact_mod_cast h

/-- C6: the LOD level a cull pass reports is 0 by default, 1 exactly when
`zoomOutFactor = sqrt(width * height / BASE_AREA)` exceeds the medium
threshold but not the low one, and 2 exactly when it exceeds the low
threshold. -/
theorem cull_lod_of_zoomOutFactor (s : ManagerState) (vb : Viewport) :
    ((cullShapes s vb).2.lodLevel = 2 ↔ (LOD_LOW_THRESHOLD : ℝ) < zoomOutFactor vb) ∧
    ((cullShapes s vb).2.lodLevel = 1 ↔
      ((LOD_MEDIUM_THRESHOLD : ℝ) < zoomOutFactor vb ∧
        zoomOutFactor vb ≤ (LOD_LOW_THRESHOLD : ℝ))) ∧
    ((cullShapes s vb).2.lodLevel = 0 ↔
      zoomOutFactor vb ≤ (LOD_MEDIUM_THRESHOLD : ℝ)) := by
  rw [cullShapes_lodLevel]
  have h8 := lt_zoomOutFactor_iff vb LOD_LOW_THRESHOLD (by norm_num [LOD_LOW_THRESHOLD])
  have h3 := lt_zoomOutFactor_iff vb LOD_MEDIUM_THRESHOLD
    (by norm_num [LOD_MEDIUM_THRESHOLD])
  unfold lodLevelOfArea
  by_cases hb : LOD_LOW_THRESHOLD ^ 2 * BASE_AREA < vb.width * vb.height
  · rw [if_pos hb]
    have hz8 : (LOD_LOW_THRESHOLD : ℝ) < zoomOutFactor vb := h8.mpr hb
    have hm : LOD_MEDIUM_THRESHOLD ^ 2 * BASE_AREA < vb.width * vb.height := by
      refine lt_of_le_of_lt ?_ hb
      norm_num [LOD_MEDIUM_THRESHOLD, LOD_LOW_THRESHOLD, BASE_AREA]
    have hz3 : (LOD_MEDIUM_THRESHOLD : ℝ) < zoomOutFactor vb := h3.mpr hm
    have hn8 : ¬(zoomOutFactor vb ≤ (LOD_LOW_THRESHOLD : ℝ)) := not_le.mpr hz8
    have hn3 : ¬(zoomOutFactor vb ≤ (LOD_MEDIUM_THRESHOLD : ℝ)) := not_le.mpr hz3
    exact ⟨by simp [hz8], by simp [hn8], by simp [hn3]⟩
  · rw [if_neg hb]
    have hz8 : ¬((LOD_LOW_THRESHOLD : ℝ) < zoomOutFactor vb) := fun hc => hb (h8.mp hc)
    have hle8 : zoomOutFactor vb ≤ (LOD_LOW_THRESHOLD : ℝ) := not_lt.mp hz8
    by_cases hm : LOD_MEDIUM_THRESHOLD ^ 2 * BASE_AREA < vb.width * vb.height
    · rw [if_pos hm]
      have hz3 : (LOD_MEDIUM_THRESHOLD : ℝ) < zoomOutFactor vb := h3.mpr hm
      have hn3 : ¬(zoomOutFactor vb ≤ (LOD_MEDIUM_THRESHOLD : ℝ)) := not_le.mpr hz3
      exact ⟨by simp [hz8], by simp [hz3, hle8], by simp [hn3]⟩
    · rw [if_neg hm]
      have hz3 : ¬((LOD_MEDIUM_THRESHOLD : ℝ) < zoomOutFactor vb) := fun hc => hm (h3.mp hc)
      have hle3 : zoomOutFactor vb ≤ (LOD_MEDIUM_THRESHOLD : ℝ) := not_lt.mp hz3
      exact ⟨by simp [hz8], by simp [hz3], by simp [hle3]⟩

theorem mapGet_mapDelete (m : ShapeMap) (k : String) :
    mapGet (mapDelete m k) k = none := by
  induction m with
  | nil => rfl
  | cons p t ih =>
    unfold mapDelete at ih ⊢
    by_cases h : p.1 == k
    · rw [List.filter_cons_of_neg (by simp [h])]
      exact ih
    · rw [List.filter_cons_of_pos (by simp [h])]
      unfold mapGet at ih ⊢
      rw [List.find?_cons_of_neg _ (by simp [h])]
      exact ih

unseal Rat.add Rat.mul Rat.inv Rat.sub in
/-- C3 counterexample: with triangle "A" selected (three handles
referencing it), `removeShape "A"` deletes the store entry but all three
handles referencing "A" survive; likewise `clear` leaves them in place. -/
theorem remove_keeps_handles_counterexample :
    ((removeShape stSel "A").resizeHandles.map Handle.shapeId = ["A", "A", "A"]) ∧
    (mapGet (removeShape stSel "A").shapes "A" = none) ∧
    ((clear stSel).resizeHandles.map Handle.shapeId = ["A", "A", "A"]) ∧
    ((clear stSel).shapes = []) := by decide

/-- C3 (amended): `removeShape` destroys the shape's render binding — the
entry is deleted and its graphics detached — and `clear` destroys every
binding, but neither operation destroys resize handles: the handle list is
left untouched, so handles referencing the removed shape persist until the
next selection change. -/
theorem remove_clear_leave_handles (s : ManagerState) (id : String) (e : ShapeEntry)
    (hget : mapGet s.shapes id = some e) :
    ((removeShape s id).resizeHandles = s.resizeHandles) ∧
    ((clear s).resizeHandles = s.resizeHandles) ∧
    (mapGet (removeShape s id).shapes id = none) ∧
    ((removeShape s id).sceneGids = s.sceneGids.erase e.gid) ∧
    ((clear s).shapes = []) := by
  unfold removeShape
  rw [hget]
  exact ⟨rfl, rfl, mapGet_mapDelete s.shapes id, rfl, rfl⟩

unseal Rat.add Rat.mul Rat.inv Rat.sub in
/-- C3 witness: the amended statement instantiated on the selected
triangle. -/
theorem remove_clear_leave_handles_witness :
    (mapGet stSel.shapes "A" = some ⟨0, triangleA, false⟩) ∧
    (((removeShape stSel "A").resizeHandles = stSel.resizeHandles) ∧
      ((clear stSel).resizeHandles = stSel.resizeHandles) ∧
      (mapGet (removeShape stSel "A").shapes "A" = none) ∧
      ((removeShape stSel "A").sceneGids = stSel.sceneGids.erase
        (⟨0, triangleA, false⟩ : ShapeEntry).gid) ∧
      ((clear stSel).shapes = [])) :=
  ⟨by decide, remove_clear_leave_handles stSel "A" ⟨0, triangleA, false⟩ (by decide)⟩

theorem updateShapeVisuals_eq (s : ManagerState) (id : String) (b : Bool) :
    updateShapeVisuals s id b =
      { s with visualLog := s.visualLog ++
          (if (mapGet s.shapes id).isSome then [(id, b)] else []) } := by
  unfold updateShapeVisuals
  cases h : mapGet s.shapes id
  · simp
  · simp

theorem updateShapeVisuals_shapes (s : ManagerState) (id : String) (b : Bool) :
    (updateShapeVisuals s id b).shapes = s.shapes := by
  rw [updateShapeVisuals_eq]

theorem updateShapeVisuals_selectedShapes (s : ManagerState) (id : String) (b : Bool) :
    (updateShapeVisuals s id b).selectedShapes = s.selectedShapes := by
  rw [updateShapeVisuals_eq]

theorem foldl_updateShapeVisuals_shapes (l : List String) (s : ManagerState) :
    (l.foldl (fun st sel => updateShapeVisuals st sel false) s).shapes = s.shapes := by
  induction l generalizing s with
  | nil => rfl
  | cons a t ih => rw [List.foldl_cons, ih, updateShapeVisuals_shapes]

theorem foldl_updateShapeVisuals_selectedShapes (l : List String) (s : ManagerState) :
    (l.foldl (fun st sel => updateShapeVisuals st sel false) s).selectedShapes =
      s.selectedShapes := by
  induction l generalizing s with
  | nil => rfl
  | cons a t ih => rw [List.foldl_cons, ih, updateShapeVisuals_selectedShapes]

theorem createResizeHandles_eq (s : ManagerState) (id : String) :
    ∃ hl, createResizeHandles s id = { s with resizeHandles := hl } := by
  unfold createResizeHandles clearResizeHandles
  dsimp only
  cases h : mapGet s.shapes id with
  | none => exact ⟨[], rfl⟩
  | some e =>
    obtain ⟨gid, sh, insc⟩ := e
    obtain ⟨sid, geom, sty, lab⟩ := sh
    cases geom with
    | polygon cs => exact ⟨_, rfl⟩
    | line ps => exact ⟨[], rfl⟩
    | point c r => exact ⟨_, rfl⟩

theorem createResizeHandles_shapes (s : ManagerState) (id : String) :
    (createResizeHandles s id).shapes = s.shapes := by
  obtain ⟨hl, h⟩ := createResizeHandles_eq s id
  rw [h]

theorem createResizeHandles_selectedShapes (s : ManagerState) (id : String) :
    (createResizeHandles s id).selectedShapes = s.selectedShapes := by
  obtain ⟨hl, h⟩ := createResizeHandles_eq s id
  rw [h]

theorem createResizeHandles_visualLog (s : ManagerState) (id : String) :
    (createResizeHandles s id).visualLog = s.visualLog := by
  obtain ⟨hl, h⟩ := createResizeHandles_eq s id
  rw [h]

/-- `selectShape (multiSelect := false)` always leaves the selection at
exactly `[id]`. -/
theorem selectShape_false_selected (s : ManagerState) (id : String) :
    (selectShape s id false).selectedShapes = [id] := by
  unfold selectShape notifySelection clearResizeHandles
  simp [apply_ite ManagerState.selectedShapes, createResizeHandles_selectedShapes,
    updateShapeVisuals_selectedShapes, setAdd, foldl_updateShapeVisuals_selectedShapes]

/-- `selectShape` never touches the shapes map. -/
theorem selectShape_shapes (s : ManagerState) (id : String) (m : Bool) :
    (selectShape s id m).shapes = s.shapes := by
  unfold selectShape notifySelection clearResizeHandles
  cases m
  · simp [apply_ite ManagerState.shapes, createResizeHandles_shapes,
      updateShapeVisuals_shapes, foldl_updateShapeVisuals_shapes]
  · simp [apply_ite ManagerState.shapes, createResizeHandles_shapes,
      updateShapeVisuals_shapes]

/-- The visual-refresh trace of `selectShape (multiSelect := false)`: first
the un-highlights of the fold over the prior selection, then the highlight
of `id` (when present). -/
theorem selectShape_false_visualLog (s : ManagerState) (id : String) :
    (selectShape s id false).visualLog =
      (s.selectedShapes.foldl (fun st sel => updateShapeVisuals st sel false) s).visualLog
        ++ (if (mapGet s.shapes id).isSome then [(id, true)] else []) := by
  unfold selectShape notifySelection clearResizeHandles
  generalize hF : List.foldl (fun st sel => updateShapeVisuals st sel false) s
    s.selectedShapes = S
  have hsh : S.shapes = s.shapes := by
    rw [← hF]
    exact foldl_updateShapeVisuals_shapes _ _
  simp [apply_ite ManagerState.visualLog, createResizeHandles_visualLog,
    updateShapeVisuals_eq, hsh]

/-- C5: selecting A then B without multi-select leaves the selection at
exactly `{B}`, and the second call's visual refreshes are exactly: A redrawn
un-highlighted first, then B redrawn highlighted. -/
theorem select_exclusive (s : ManagerState) (A B : String) (_hAB : A ≠ B)
    (hA : (mapGet s.shapes A).isSome = true) (hB : (mapGet s.shapes B).isSome = true) :
    (selectShape (selectShape s A false) B false).selectedShapes = [B] ∧
    (selectShape (selectShape s A false) B false).visualLog =
      (selectShape s A false).visualLog ++ [(A, false), (B, true)] := by
  refine ⟨selectShape_false_selected (selectShape s A false) B, ?_⟩
  rw [selectShape_false_visualLog (selectShape s A false) B,
    selectShape_false_selected s A, List.foldl_cons, List.foldl_nil,
    updateShapeVisuals_eq]
  simp [selectShape_shapes, hA, hB]

unseal Rat.add Rat.mul Rat.inv Rat.sub in
/-- C5 witness: the two triangles, selecting "A" then "B". -/
theorem select_exclusive_witness :
    (("A" : String) ≠ "B") ∧
    ((mapGet stAB.shapes "A").isSome = true) ∧
    ((mapGet stAB.shapes "B").isSome = true) ∧
    ((selectShape (selectShape stAB "A" false) "B" false).selectedShapes = ["B"] ∧
      (selectShape (selectShape stAB "A" false) "B" false).visualLog =
        (selectShape stAB "A" false).visualLog ++ [("A", false), ("B", true)]) :=
  ⟨by decide, by decide, by decide,
    select_exclusive stAB "A" "B" (by decide) (by decide) (by decide)⟩

/-- C9: when the active shape id has been removed mid-gesture (dragging or
resizing), `handlePointerMove` is a complete no-op, and `handlePointerUp`
returns the machine to Idle without touching the store or the scene. -/
theorem pointer_handlers_noop_on_missing (sqrtFn : ℚ → ℚ) (s : ManagerState)
    (p : Coordinate) (aid : String) (hact : s.activeShapeId = some aid)
    (_hmode : s.isDragging = true ∨ s.isResizing = true)
    (hmiss : mapGet s.shapes aid = none) :
    handlePointerMove sqrtFn s p = s ∧
    (handlePointerUp s).isDragging = false ∧
    (handlePointerUp s).isResizing = false ∧
    (handlePointerUp s).activeShapeId = none ∧
    (handlePointerUp s).resizeHandleIndex = -1 ∧
    (handlePointerUp s).shapes = s.shapes ∧
    (handlePointerUp s).sceneGids = s.sceneGids := by
  refine ⟨?_, rfl, rfl, rfl, rfl, rfl, rfl⟩
  unfold handlePointerMove
  rw [hact]
  by_cases hd : s.isDragging
  · simp [hd, hmiss]
  · by_cases hr : s.isResizing
    · simp [hd, hr, hmiss]
    · simp [hd, hr]

theorem foldl_preserves {α β : Type} (P : β → Prop) (f : β → α → β)
    (hf : ∀ b a, P b → P (f b a)) (l : List α) (b : β) (hb : P b) :
    P (l.foldl f b) := by
  induction l generalizing b with
  | nil => exact hb
  | cons a t ih => exact ih _ (hf b a hb)

theorem mem_append_singleton_minGeom (shapes : List Shape) (sh : Shape)
    (h : ∀ x ∈ shapes, hasMinGeometry x = true) (hsh : hasMinGeometry sh = true) :
    ∀ x ∈ shapes ++ [sh], hasMinGeometry x = true := by
  intro x hx
  rcases List.mem_append.mp hx with h1 | h2
  · exact h x h1
  · rw [List.mem_singleton] at h2
    subst h2
    exact hsh

theorem parseLaterals_minGeom (blockId : String) (lateralColor : String)
    (lateralWidth : ℚ) (lats : List Lateral) (shapes : List Shape)
    (h : ∀ x ∈ shapes, hasMinGeometry x = true) :
    ∀ x ∈ parseLaterals blockId lateralColor lateralWidth lats shapes,
      hasMinGeometry x = true := by
  unfold parseLaterals
  refine foldl_preserves (fun sh => ∀ x ∈ sh, hasMinGeometry x = true) _ ?_ lats shapes h
  intro b lateral hb x hx
  rcases lateral with ⟨idx, layout⟩
  cases layout with
  | none => exact hb x hx
  | some lay =>
    dsimp only at hx
    split at hx
    · exact hb x hx
    · split at hx
      · exact hb x hx
      · rcases List.mem_append.mp hx with h1 | h2
        · exact hb x h1
        · rw [List.mem_singleton] at h2
          subst h2
          rename_i hlen1 hlen2
          unfold hasMinGeometry
          exact decide_eq_true (not_lt.mp hlen2)

theorem parseBlock_minGeom (block : Block) (shapes : List Shape)
    (h : ∀ x ∈ shapes, hasMinGeometry x = true) :
    ∀ x ∈ parseBlock block shapes, hasMinGeometry x = true := by
  unfold parseBlock
  cases block.Coordinates with
  | none => exact h
  | some rawCoords =>
    dsimp only
    split
    · exact h
    · split
      · exact h
      · rename_i hraw hfiltered
        cases block.Laterals with
        | none =>
          dsimp only
          refine mem_append_singleton_minGeom _ _ h ?_
          exact decide_eq_true (not_lt.mp hfiltered)
        | some lb =>
          dsimp only
          cases lb.Laterals with
          | none =>
            dsimp only
            refine mem_append_singleton_minGeom _ _ h ?_
            exact decide_eq_true (not_lt.mp hfiltered)
          | some lats =>
            dsimp only
            refine parseLaterals_minGeom _ _ _ lats _
              (mem_append_singleton_minGeom _ _ h ?_)
            exact decide_eq_true (not_lt.mp hfiltered)

/-- C4: every shape the importer emits satisfies the minimum-geometry
contract (polygons have at least 3 usable points, lines at least 2: nodes
lacking them are skipped with only a local warning), and on the Scenario B
project the block with the empty coordinate list yields no shape while its
well-formed sibling and the enclosing subarea do. -/
theorem parser_skips_insufficient :
    (∀ json x, x ∈ parseIrrigationProject json → hasMinGeometry x = true) ∧
    ((parseIrrigationProject (some scenarioProject)).map Shape.id =
      ["subarea-SA", "block-B2"]) := by
  constructor
  · intro json x hx
    cases json with
    | none => cases hx
    | some j =>
      unfold parseIrrigationProject at hx
      dsimp only at hx
      cases hsa : j.SubAreas with
      | none => rw [hsa] at hx; simp at hx
      | some subAreas =>
        rw [hsa] at hx
        dsimp only at hx
        refine foldl_preserves (fun shapes => ∀ y ∈ shapes, hasMinGeometry y = true)
          _ ?_ subAreas [] (by intro y hy; cases hy) x hx
        intro b subArea hb y hy
        cases hco : subArea.Coordinates with
        | none => rw [hco] at hy; exact hb y hy
        | some rawCoords =>
          rw [hco] at hy
          dsimp only at hy
          split at hy
          · exact hb y hy
          · split at hy
            · exact hb y hy
            · rename_i hraw hfiltered
              have hpush : ∀ z ∈ b ++ [subAreaShape subArea
                  (rawCoords.filterMap coordsArrayToCoordinate)],
                  hasMinGeometry z = true := by
                intro z hz
                rcases List.mem_append.mp hz with h1 | h2
                · exact hb z h1
                · rw [List.mem_singleton] at h2
                  subst h2
                  unfold subAreaShape hasMinGeometry
                  exact decide_eq_true (not_lt.mp hfiltered)
              cases hbl : subArea.Blocks with
              | none => rw [hbl] at hy; exact hpush y hy
              | some blocks =>
                rw [hbl] at hy
                exact foldl_preserves (fun shapes => ∀ z ∈ shapes, hasMinGeometry z = true)
                  _ (fun c blk hc => parseBlock_minGeom blk c hc) blocks _ hpush y hy
  · decide

unseal Rat.add Rat.mul Rat.inv Rat.sub in
/-- C4 witness: the first shape of the Scenario B parse satisfies the
minimum-geometry contract. -/
theorem parser_skips_insufficient_witness :
    hasMinGeometry scenarioHeadShape = true :=
  parser_skips_insufficient.1 (some scenarioProject) scenarioHeadShape (by decide)

theorem blockRowLoop_done (ctx : GenCtx) (subAreaIndex : ℕ) (x y bs : ℚ)
    (c : ℤ) (bRow remaining : ℕ) (st : GenState)
    (h : ctx.target ≤ st.shapeCount) :
    blockRowLoop ctx subAreaIndex x y bs c bRow remaining st = st := by
  cases remaining with
  | zero => rfl
  | succ r =>
    unfold blockRowLoop
    rw [if_neg (by omega)]

theorem cull_single (sh : Shape) (vb : Viewport)
    (hcov : boxOptIntersects (calculateShapeBounds sh) (bufferedBox vb) = true) :
    (cullShapes (ingestAndIndex [sh]) vb).2.count = 1 ∧
    (cullShapes (ingestAndIndex [sh]) vb).2.total = 1 := by
  have hstate : ingestAndIndex [sh] =
      { initialState with
          shapes := [(sh.id, ⟨0, sh, false⟩)]
          nextGid := 1
          spatialIndex := some [⟨calculateShapeBounds sh, sh.id⟩] } := rfl
  rw [hstate]
  unfold cullShapes cullStep
  simp only [Option.isNone_some, Bool.false_eq_true, if_false, Option.getD_some,
    List.filter_cons, hcov, if_true, List.filter_nil, List.map_cons, List.map_nil,
    List.toFinset_cons, List.toFinset_nil, List.foldl_cons, List.foldl_nil]
  split
  · split <;> simp
  · rename_i hmem
    exact absurd (Finset.mem_insert_self _ _) hmem

theorem generate_target_one (sqrtFn : ℚ → ℚ) (rand : ℕ → ℚ)
    (config : StressTestConfig) (h1 : config.targetShapeCount = 1)
    (hw : 0 < config.areaWidth) (hh : 0 < config.areaHeight) :
    ∃ x y w h : ℚ, generateStressTestShapes sqrtFn rand config =
      [genSubAreaShape x y w h 0] := by
  have hrow : 0 < ⌈config.areaWidth / (1500 : ℚ)⌉ :=
    Int.ceil_pos.mpr (div_pos hw (by norm_num))
  have hcol : 0 < ⌈config.areaHeight / (1500 : ℚ)⌉ :=
    Int.ceil_pos.mpr (div_pos hh (by norm_num))
  obtain ⟨k, hk⟩ : ∃ n, (⌈config.areaWidth / (1500 : ℚ)⌉).toNat = n + 1 :=
    ⟨(⌈config.areaWidth / (1500 : ℚ)⌉).toNat - 1, by omega⟩
  obtain ⟨m, hm⟩ : ∃ n, (⌈config.areaHeight / (1500 : ℚ)⌉).toNat = n + 1 :=
    ⟨(⌈config.areaHeight / (1500 : ℚ)⌉).toNat - 1, by omega⟩
  refine ⟨config.baseX + ((0 : ℕ) : ℚ) * 1500, config.baseY + ((0 : ℕ) : ℚ) * 1500,
    1500 + (rand 0 - 1/2) * 200, 1500 + (rand 1 - 1/2) * 200, ?_⟩
  unfold generateStressTestShapes
  dsimp only
  rw [h1, hk]
  simp only [subAreaRowLoop]
  rw [hm]
  simp only [subAreaColLoop]
  rw [blockRowLoop_done]
  · simp
  · simp

/-- C7: with `targetShapeCount = 1` and positive area, the generator emits
exactly one shape — a subarea polygon with id "subarea-0" — and culling the
ingested store with a viewport whose buffered bounds cover the generated
world reports `visible = 1, total = 1`. -/
theorem generator_single_shape_cull (sqrtFn : ℚ → ℚ) (rand : ℕ → ℚ)
    (config : StressTestConfig) (h1 : config.targetShapeCount = 1)
    (hw : 0 < config.areaWidth) (hh : 0 < config.areaHeight) (vb : Viewport)
    (hcov : ∀ sh ∈ generateStressTestShapes sqrtFn rand config,
      boxOptIntersects (calculateShapeBounds sh) (bufferedBox vb) = true) :
    (generateStressTestShapes sqrtFn rand config).length = 1 ∧
    (∀ sh ∈ generateStressTestShapes sqrtFn rand config,
      sh.id = "subarea-0" ∧ ∃ cs, sh.geom = ShapeGeom.polygon cs) ∧
    ((cullShapes (ingestAndIndex (generateStressTestShapes sqrtFn rand config))
      vb).2.count = 1 ∧
     (cullShapes (ingestAndIndex (generateStressTestShapes sqrtFn rand config))
      vb).2.total = 1) := by
  obtain ⟨x, y, w, h, hgen⟩ := generate_target_one sqrtFn rand config h1 hw hh
  rw [hgen] at hcov ⊢
  refine ⟨rfl, ?_, ?_⟩
  · intro sh hsh
    rw [List.mem_singleton] at hsh
    subst hsh
    exact ⟨rfl, _, rfl⟩
  · exact cull_single _ vb (hcov _ (List.mem_singleton_self _))

unseal Rat.add Rat.mul Rat.inv Rat.sub in
/-- C7 witness: the one-shape configuration on a 1500x1500 area with a
world-covering viewport. -/
theorem generator_single_shape_cull_witness :
    (cfgOne.targetShapeCount = 1) ∧ ((0 : ℚ) < cfgOne.areaWidth) ∧
    ((0 : ℚ) < cfgOne.areaHeight) ∧
    (∀ sh ∈ generateStressTestShapes sqrtZero randHalf cfgOne,
      boxOptIntersects (calculateShapeBounds sh) (bufferedBox vbWorld) = true) ∧
    ((generateStressTestShapes sqrtZero randHalf cfgOne).length = 1 ∧
     (∀ sh ∈ generateStressTestShapes sqrtZero randHalf cfgOne,
       sh.id = "subarea-0" ∧ ∃ cs, sh.geom = ShapeGeom.polygon cs) ∧
     ((cullShapes (ingestAndIndex (generateStressTestShapes sqrtZero randHalf cfgOne))
       vbWorld).2.count = 1 ∧
      (cullShapes (ingestAndIndex (generateStressTestShapes sqrtZero randHalf cfgOne))
       vbWorld).2.total = 1)) :=
  ⟨rfl, by decide, by decide, by decide,
    generator_single_shape_cull sqrtZero randHalf cfgOne rfl (by decide) (by decide)
      vbWorld (by decide)⟩

theorem mapGet_mapSet_self (m : ShapeMap) (k : String) (v : ShapeEntry) :
    mapGet (mapSet m k v) k = some v := by
  induction m with
  | nil => simp [mapSet, mapGet]
  | cons p t ih =>
    by_cases hp : p.1 == k
    · have hany : ((p :: t).any fun q => q.1 == k) = true := by simp [List.any_cons, hp]
      unfold mapSet
      rw [if_pos hany, List.map_cons, if_pos hp]
      unfold mapGet
      simp
    · have hp' : (p.1 == k) = false := by simpa using hp
      by_cases ht : (t.any fun q => q.1 == k)
      · have hany : ((p :: t).any fun q => q.1 == k) = true := by
          simp [List.any_cons, ht]
        unfold mapSet
        rw [if_pos hany, List.map_cons, if_neg (by simp [hp'])]
        have ihh := ih
        unfold mapSet at ihh
        rw [if_pos ht] at ihh
        unfold mapGet at ihh ⊢
        simpa [hp'] using ihh
      · have ht' : (t.any fun q => q.1 == k) = false := Bool.eq_false_iff.mpr ht
        have hany : ((p :: t).any fun q => q.1 == k) = false := by
          simp [List.any_cons, hp', ht']
        unfold mapSet
        rw [if_neg (by rw [hany]; exact Bool.false_ne_true)]
        have ihh := ih
        unfold mapSet at ihh
        rw [if_neg (by rw [ht']; exact Bool.false_ne_true)] at ihh
        unfold mapGet at ihh ⊢
        rw [List.cons_append]
        simpa [hp'] using ihh

theorem updateResizeHandles_eq (s : ManagerState) (id : String) :
    ∃ hl, updateResizeHandles s id = { s with resizeHandles := hl } := by
  unfold updateResizeHandles
  dsimp only
  cases h : mapGet s.shapes id with
  | none => exact ⟨s.resizeHandles, rfl⟩
  | some e =>
    obtain ⟨gid, sh, insc⟩ := e
    obtain ⟨sid, geom, sty, lab⟩ := sh
    cases geom with
    | polygon cs => exact ⟨_, rfl⟩
    | line ps => exact ⟨s.resizeHandles, rfl⟩
    | point c r => exact ⟨_, rfl⟩

theorem updateResizeHandles_shapes (s : ManagerState) (id : String) :
    (updateResizeHandles s id).shapes = s.shapes := by
  obtain ⟨hl, h⟩ := updateResizeHandles_eq s id
  rw [h]

/-- C8: a pointer move in the resizing state over a point shape sets the
radius to `max 3 (sqrt (dx*dx + dy*dy))` (the Euclidean distance from the
point's center to the pointer, floored at the minimum radius 3), so the
stored radius is at least 3 and in particular never negative. -/
theorem resize_point_radius_floor (sqrtFn : ℚ → ℚ) (s : ManagerState) (aid : String)
    (e : ShapeEntry) (c : Coordinate) (r : Option ℚ) (p : Coordinate)
    (hact : s.activeShapeId = some aid) (hdrag : s.isDragging = false)
    (hres : s.isResizing = true) (hget : mapGet s.shapes aid = some e)
    (hgeom : e.shape.geom = .point c r)
    (hs : ((sqrtFn (sqDist c p) : ℚ) : ℝ) = Real.sqrt ((sqDist c p : ℚ) : ℝ)) :
    ∃ e2, mapGet (handlePointerMove sqrtFn s p).shapes aid = some e2 ∧
      e2.shape.geom = .point c (some (max 3 (sqrtFn (sqDist c p)))) ∧
      (3 : ℚ) ≤ max 3 (sqrtFn (sqDist c p)) ∧
      (0 : ℚ) ≤ max 3 (sqrtFn (sqDist c p)) ∧
      ((max 3 (sqrtFn (sqDist c p)) : ℚ) : ℝ) =
        max 3 (Real.sqrt ((sqDist c p : ℚ) : ℝ)) := by
  unfold handlePointerMove
  rw [hact]
  simp only [hdrag, Bool.false_eq_true, if_false, hres, if_true, hget]
  rw [hgeom]
  let e2v : ShapeEntry := { e with shape :=
    { e.shape with geom := ShapeGeom.point c (some (max 3 (sqrtFn (sqDist c p)))) } }
  refine ⟨e2v, ?_, rfl, le_max_left 3 _,
    le_trans (by norm_num) (le_max_left 3 _), ?_⟩
  · rw [updateResizeHandles_shapes, updateShapeVisuals_shapes]
    exact mapGet_mapSet_self s.shapes aid _
  · rw [Rat.cast_max, hs]
    norm_num

unseal Rat.add Rat.mul Rat.inv Rat.sub in
/-- C8 witness: resizing the point "P" centered at the origin with the
pointer at (3, 4); the distance is 5 and the stored radius becomes 5. -/
theorem resize_point_radius_floor_witness :
    (stResize.activeShapeId = some "P") ∧ (stResize.isDragging = false) ∧
    (stResize.isResizing = true) ∧
    (mapGet stResize.shapes "P" = some ⟨0, pointP, false⟩) ∧
    ((⟨0, pointP, false⟩ : ShapeEntry).shape.geom = .point ⟨0, 0⟩ (some 5)) ∧
    (((sqrtFive (sqDist ⟨0, 0⟩ ⟨3, 4⟩) : ℚ) : ℝ) =
      Real.sqrt ((sqDist ⟨0, 0⟩ ⟨3, 4⟩ : ℚ) : ℝ)) ∧
    (∃ e2, mapGet (handlePointerMove sqrtFive stResize ⟨3, 4⟩).shapes "P" = some e2 ∧
      e2.shape.geom = .point ⟨0, 0⟩ (some (max 3 (sqrtFive (sqDist ⟨0, 0⟩ ⟨3, 4⟩)))) ∧
      (3 : ℚ) ≤ max 3 (sqrtFive (sqDist ⟨0, 0⟩ ⟨3, 4⟩)) ∧
      (0 : ℚ) ≤ max 3 (sqrtFive (sqDist ⟨0, 0⟩ ⟨3, 4⟩)) ∧
      ((max 3 (sqrtFive (sqDist ⟨0, 0⟩ ⟨3, 4⟩)) : ℚ) : ℝ) =
        max 3 (Real.sqrt ((sqDist ⟨0, 0⟩ ⟨3, 4⟩ : ℚ) : ℝ))) := by
  have h25 : sqDist ⟨0, 0⟩ ⟨3, 4⟩ = 25 := by decide
  have hs : ((sqrtFive (sqDist ⟨0, 0⟩ ⟨3, 4⟩) : ℚ) : ℝ) =
      Real.sqrt ((sqDist ⟨0, 0⟩ ⟨3, 4⟩ : ℚ) : ℝ) := by
    rw [h25]
    show ((5 : ℚ) : ℝ) = Real.sqrt ((25 : ℚ) : ℝ)
    rw [show ((25 : ℚ) : ℝ) = (5 : ℝ) ^ 2 by norm_num,
      Real.sqrt_sq (by norm_num : (0 : ℝ) ≤ 5)]
    norm_num
  exact ⟨rfl, rfl, rfl, by decide, rfl, hs,
    resize_point_radius_floor sqrtFive stResize "P" ⟨0, pointP, false⟩ ⟨0, 0⟩ (some 5)
      ⟨3, 4⟩ rfl rfl rfl (by decide) rfl hs⟩

theorem mem_mapSet {m : ShapeMap} {k : String} {v : ShapeEntry}
    {q : String × ShapeEntry} (hq : q ∈ mapSet m k v) : q ∈ m ∨ q = (k, v) := by
  unfold mapSet at hq
  split at hq
  · obtain ⟨p, hp, hfn⟩ := List.mem_map.mp hq
    by_cases h : p.1 == k
    · right
      rw [if_pos h] at hfn
      exact hfn.symm
    · left
      rw [if_neg h] at hfn
      exact hfn ▸ hp
  · rcases List.mem_append.mp hq with h1 | h2
    · exact Or.inl h1
    · right
      rwa [List.mem_singleton] at h2

theorem mem_of_mapGet {m : ShapeMap} {k : String} {e : ShapeEntry}
    (h : mapGet m k = some e) : (k, e) ∈ m := by
  unfold mapGet at h
  cases hf : m.find? (fun p => p.1 == k) with
  | none => rw [hf] at h; cases h
  | some q =>
    rw [hf] at h
    have hq2 : q.2 = e := Option.some.inj h
    have hqm := List.mem_of_find?_eq_some hf
    have hk := List.find?_some hf
    have hq1 : q.1 = k := by simpa using hk
    have : q = (k, e) := Prod.ext hq1 hq2
    exact this ▸ hqm

theorem mapGet_unique (m : ShapeMap) (hkeys : (m.map Prod.fst).Nodup)
    {k : String} {e : ShapeEntry} (hget : mapGet m k = some e) :
    ∀ q ∈ m, q.1 = k → q.2 = e := by
  induction m with
  | nil => intro q hq; cases hq
  | cons p t ih =>
    rw [List.map_cons, List.nodup_cons] at hkeys
    obtain ⟨hk1, hk2⟩ := hkeys
    unfold mapGet at hget
    intro q hq hqk
    by_cases hp : p.1 == k
    · have hfind : List.find? (fun x => x.1 == k) (p :: t) = some p := by
        simp [hp]
      rw [hfind] at hget
      have hp2 : p.2 = e := Option.some.inj hget
      have hp1 : p.1 = k := by simpa using hp
      rcases List.mem_cons.mp hq with rfl | hqt
      · exact hp2
      · exact absurd (List.mem_map.mpr ⟨q, hqt, hqk.trans hp1.symm⟩) hk1
    · have hfind : List.find? (fun x => x.1 == k) (p :: t) =
          List.find? (fun x => x.1 == k) t := by
        simp [hp]
      rw [hfind] at hget
      rcases List.mem_cons.mp hq with rfl | hqt
      · exact absurd hqk (by simpa using hp)
      · exact ih hk2 hget q hqt hqk

theorem nodup_keys_mapSet (m : ShapeMap) (k : String) (v : ShapeEntry)
    (hkeys : (m.map Prod.fst).Nodup) :
    ((mapSet m k v).map Prod.fst).Nodup := by
  unfold mapSet
  split
  · rw [List.map_map]
    have : (Prod.fst ∘ fun p => if p.1 == k then (k, v) else p) =
        fun p : String × ShapeEntry => p.1 := by
      funext p
      by_cases hp : p.1 == k
      · simp only [Function.comp, if_pos hp]
        exact (beq_iff_eq.mp hp).symm
      · simp only [Function.comp, if_neg hp]
    rw [this]
    exact hkeys
  · rename_i hany
    rw [List.map_append]
    rw [List.nodup_append]
    refine ⟨hkeys, List.nodup_singleton k, ?_⟩
    intro a ha hb
    rw [List.map_singleton, List.mem_singleton] at hb
    subst hb
    obtain ⟨p, hp, hpk⟩ := List.mem_map.mp ha
    exact hany (List.any_eq_true.mpr ⟨p, hp, by simp [hpk]⟩)

theorem nodup_gids_map_replace (t : ShapeMap) (k : String) (v : ShapeEntry)
    (hkeys : (t.map Prod.fst).Nodup)
    (hgids : (t.map (fun p => p.2.gid)).Nodup)
    (hfresh : ∀ p ∈ t, p.2.gid ≠ v.gid) :
    ((t.map (fun p => if p.1 == k then (k, v) else p)).map
      (fun p => p.2.gid)).Nodup := by
  induction t with
  | nil => simp
  | cons p t ih =>
    rw [List.map_cons, List.nodup_cons] at hkeys hgids
    obtain ⟨hk1, hk2⟩ := hkeys
    obtain ⟨hg1, hg2⟩ := hgids
    have hfp := hfresh p (List.mem_cons_self p t)
    have hft : ∀ q ∈ t, q.2.gid ≠ v.gid :=
      fun q hq => hfresh q (List.mem_cons_of_mem p hq)
    rw [List.map_cons, List.map_cons, List.nodup_cons]
    refine ⟨?_, ih hk2 hg2 hft⟩
    intro hmem
    obtain ⟨x, hx, hxg⟩ := List.mem_map.mp hmem
    obtain ⟨q, hq, hfn⟩ := List.mem_map.mp hx
    subst hfn
    by_cases hqk : q.1 == k
    · rw [if_pos hqk] at hxg
      by_cases hpk : p.1 == k
      · exact hk1 (List.mem_map.mpr
          ⟨q, hq, (beq_iff_eq.mp hqk).trans (beq_iff_eq.mp hpk).symm⟩)
      · rw [if_neg hpk] at hxg
        exact hfp hxg.symm
    · rw [if_neg hqk] at hxg
      by_cases hpk : p.1 == k
      · rw [if_pos hpk] at hxg
        exact hft q hq hxg
      · rw [if_neg hpk] at hxg
        exact hg1 (List.mem_map.mpr ⟨q, hq, hxg⟩)

theorem nodup_gids_mapSet (m : ShapeMap) (k : String) (v : ShapeEntry)
    (hkeys : (m.map Prod.fst).Nodup)
    (hgids : (m.map (fun p => p.2.gid)).Nodup)
    (hfresh : ∀ p ∈ m, p.2.gid ≠ v.gid) :
    ((mapSet m k v).map (fun p => p.2.gid)).Nodup := by
  unfold mapSet
  split
  · exact nodup_gids_map_replace m k v hkeys hgids hfresh
  · rw [List.map_append, List.nodup_append]
    refine ⟨hgids, List.nodup_singleton _, ?_⟩
    intro a ha hb
    rw [List.map_singleton, List.mem_singleton] at hb
    subst hb
    obtain ⟨p, hp, hpg⟩ := List.mem_map.mp ha
    exact hfresh p hp hpg

/-- The attach-relevant view of an entry list: key, graphics identity,
`inScene` flag. -/
theorem view_mapSet_same (m : ShapeMap) (k : String) (v e : ShapeEntry)
    (hkeys : (m.map Prod.fst).Nodup) (hget : mapGet m k = some e)
    (hgid : v.gid = e.gid) (hsc : v.inScene = e.inScene) :
    (mapSet m k v).map (fun q => (q.1, q.2.gid, q.2.inScene)) =
      m.map (fun q => (q.1, q.2.gid, q.2.inScene)) := by
  have hany : m.any (fun p => p.1 == k) = true :=
    List.any_eq_true.mpr ⟨(k, e), mem_of_mapGet hget, by simp⟩
  unfold mapSet
  rw [if_pos hany, List.map_map]
  refine List.map_congr_left ?_
  intro q hq
  by_cases hqk : q.1 == k
  · have hqk1 : q.1 = k := by simpa using hqk
    have hq2 : q.2 = e := mapGet_unique m hkeys hget q hq hqk1
    simp [Function.comp, hqk1, hq2, hgid, hsc]
  · simp only [Function.comp, if_neg hqk]

/-- `WF` only depends on the attach view, the scene set and the allocator
counter. -/
theorem WF_of_view_eq (s1 s2 : ManagerState)
    (hv : s2.shapes.map (fun q => (q.1, q.2.gid, q.2.inScene)) =
          s1.shapes.map (fun q => (q.1, q.2.gid, q.2.inScene)))
    (hsc : s2.sceneGids = s1.sceneGids) (hng : s2.nextGid = s1.nextGid)
    (h : WF s1) : WF s2 := by
  obtain ⟨hinv, hbound, hscb, hgids, hkeys⟩ := h
  have hview : ∀ p ∈ s2.shapes, ∃ q ∈ s1.shapes,
      q.1 = p.1 ∧ q.2.gid = p.2.gid ∧ q.2.inScene = p.2.inScene := by
    intro p hp
    have : (p.1, p.2.gid, p.2.inScene) ∈
        s1.shapes.map (fun q => (q.1, q.2.gid, q.2.inScene)) := by
      rw [← hv]
      exact List.mem_map.mpr ⟨p, hp, rfl⟩
    obtain ⟨q, hq, hqe⟩ := List.mem_map.mp this
    rw [Prod.mk.injEq, Prod.mk.injEq] at hqe
    exact ⟨q, hq, hqe.1, hqe.2.1, hqe.2.2⟩
  refine ⟨?_, ?_, ?_, ?_, ?_⟩
  · intro p hp
    obtain ⟨q, hq, h1, h2, h3⟩ := hview p hp
    rw [hsc, ← h2, ← h3]
    exact hinv q hq
  · intro p hp
    obtain ⟨q, hq, h1, h2, h3⟩ := hview p hp
    rw [hng, ← h2]
    exact hbound q hq
  · intro g hg
    rw [hsc] at hg
    rw [hng]
    exact hscb g hg
  · have : s2.shapes.map (fun p => p.2.gid) =
        (s2.shapes.map (fun q => (q.1, q.2.gid, q.2.inScene))).map
          (fun r => r.2.1) := by
      rw [List.map_map]
      rfl
    rw [this, hv, List.map_map]
    exact hgids
  · have : s2.shapes.map Prod.fst =
        (s2.shapes.map (fun q => (q.1, q.2.gid, q.2.inScene))).map
          (fun r => r.1) := by
      rw [List.map_map]
      rfl
    rw [this, hv, List.map_map]
    exact hkeys

theorem cullStep_sceneGids_cases (cand : Finset String) (lod : ℕ) (acc : CullAcc)
    (p : String × ShapeEntry) :
    (cullStep cand lod acc p).sceneGids = acc.sceneGids ∨
    (cullStep cand lod acc p).sceneGids = insert p.2.gid acc.sceneGids ∨
    (cullStep cand lod acc p).sceneGids = acc.sceneGids.erase p.2.gid := by
  rcases p with ⟨id, e⟩
  unfold cullStep
  by_cases h1 : id ∈ cand
  · by_cases h2 : 1 ≤ lod ∧ isLineShape e.shape = true
    · by_cases h3 : e.inScene <;> simp [h1, h2, h3]
    · by_cases h3 : e.inScene <;> simp [h1, h2, h3]
  · by_cases h3 : e.inScene <;> simp [h1, h3]

theorem cullStep_sceneGids_other (cand : Finset String) (lod : ℕ) (acc : CullAcc)
    (p : String × ShapeEntry) (g : ℕ) (hne : g ≠ p.2.gid) :
    (g ∈ (cullStep cand lod acc p).sceneGids ↔ g ∈ acc.sceneGids) := by
  rcases cullStep_sceneGids_cases cand lod acc p with h | h | h <;> rw [h]
  · simp [Finset.mem_insert, hne]
  · simp [Finset.mem_erase, hne]

theorem cullStep_self_inv (cand : Finset String) (lod : ℕ) (acc : CullAcc)
    (p : String × ShapeEntry)
    (hp : p.2.inScene = true ↔ p.2.gid ∈ acc.sceneGids) :
    (cullFlag cand lod p.1 p.2 = true ↔
      p.2.gid ∈ (cullStep cand lod acc p).sceneGids) := by
  rcases p with ⟨id, e⟩
  unfold cullStep cullFlag
  dsimp only at hp ⊢
  by_cases h1 : id ∈ cand
  · by_cases h2 : 1 ≤ lod ∧ isLineShape e.shape = true
    · by_cases h3 : e.inScene
      · simp [h1, h2, h3, Finset.not_mem_erase]
      · simp only [h1, h2, h3, Bool.false_eq_true, if_true, if_false]
        simp only [h3, Bool.false_eq_true, false_iff] at hp
        simp [h2, hp]
    · by_cases h3 : e.inScene
      · simp only [h1, h2, h3, if_true, if_false]
        simp only [h3, true_iff] at hp
        simp [h1, h2, hp]
      · simp [h1, h2, h3, Finset.mem_insert_self]
  · by_cases h3 : e.inScene
    · simp [h1, h3, Finset.not_mem_erase]
    · simp only [h3, Bool.false_eq_true, false_iff] at hp
      simp [h1, h3, hp]

theorem foldl_cullStep_sceneGids_subset (cand : Finset String) (lod : ℕ)
    (l : ShapeMap) (acc : CullAcc) :
    (l.foldl (cullStep cand lod) acc).sceneGids ⊆
      acc.sceneGids ∪ (l.map (fun p => p.2.gid)).toFinset := by
  induction l generalizing acc with
  | nil => simp
  | cons p t ih =>
    rw [List.foldl_cons]
    refine (ih (cullStep cand lod acc p)).trans ?_
    intro g hg
    rw [Finset.mem_union] at hg
    rcases hg with hg | hg
    · rcases cullStep_sceneGids_cases cand lod acc p with h | h | h <;> rw [h] at hg
      · simp only [List.map_cons, List.toFinset_cons, Finset.mem_union]
        exact Or.inl hg
      · rw [Finset.mem_insert] at hg
        rcases hg with rfl | hg
        · simp
        · simp only [Finset.mem_union]
          exact Or.inl hg
      · simp only [Finset.mem_union]
        exact Or.inl (Finset.mem_of_mem_erase hg)
    · simp only [List.map_cons, List.toFinset_cons, Finset.mem_union,
        Finset.mem_insert] at hg ⊢
      tauto

theorem foldl_cullStep_sceneInv (cand : Finset String) (lod : ℕ) (l : ShapeMap)
    (acc : CullAcc)
    (hnd : ((acc.shapes ++ l).map (fun p => p.2.gid)).Nodup)
    (hacc : ∀ q ∈ acc.shapes, q.2.inScene = true ↔ q.2.gid ∈ acc.sceneGids)
    (htodo : ∀ p ∈ l, p.2.inScene = true ↔ p.2.gid ∈ acc.sceneGids) :
    ∀ q ∈ (l.foldl (cullStep cand lod) acc).shapes,
      q.2.inScene = true ↔ q.2.gid ∈ (l.foldl (cullStep cand lod) acc).sceneGids := by
  induction l generalizing acc with
  | nil => exact hacc
  | cons p t ih =>
    rw [List.map_append, List.nodup_append] at hnd
    obtain ⟨hnd1, hnd2, hdisj⟩ := hnd
    rw [List.map_cons, List.nodup_cons] at hnd2
    obtain ⟨hpt, hndt⟩ := hnd2
    have hpacc : ∀ q ∈ acc.shapes, q.2.gid ≠ p.2.gid := by
      intro q hq hcontra
      exact hdisj (List.mem_map.mpr ⟨q, hq, rfl⟩) (by simp [hcontra])
    have hptne : ∀ q ∈ t, q.2.gid ≠ p.2.gid := by
      intro q hq hcontra
      exact hpt (List.mem_map.mpr ⟨q, hq, hcontra⟩)
    rw [List.foldl_cons]
    refine ih (cullStep cand lod acc p) ?_ ?_ ?_
    · rw [cullStep_shapes, List.map_append, List.nodup_append]
      refine ⟨?_, hndt, ?_⟩
      · rw [List.map_append, List.nodup_append]
        refine ⟨hnd1, by simp, ?_⟩
        intro a ha hb
        simp only [List.map_cons, List.map_nil, List.mem_singleton] at hb
        subst hb
        obtain ⟨q, hq, hqg⟩ := List.mem_map.mp ha
        exact hpacc q hq hqg
      · intro a ha hb
        rw [List.map_append] at ha
        rcases List.mem_append.mp ha with ha | ha
        · obtain ⟨q, hq, hqg⟩ := List.mem_map.mp ha
          obtain ⟨r, hr, hrg⟩ := List.mem_map.mp hb
          exact hdisj (List.mem_map.mpr ⟨q, hq, hqg⟩)
            (List.mem_map.mpr ⟨r, List.mem_cons_of_mem p hr, hrg⟩)
        · simp only [List.map_cons, List.map_nil, List.mem_singleton] at ha
          subst ha
          obtain ⟨r, hr, hrg⟩ := List.mem_map.mp hb
          exact hptne r hr hrg
    · intro q hq
      rw [cullStep_shapes] at hq
      rcases List.mem_append.mp hq with h1 | h2
      · rw [cullStep_sceneGids_other cand lod acc p _ (hpacc q h1)]
        exact hacc q h1
      · rw [List.mem_singleton] at h2
        subst h2
        exact cullStep_self_inv cand lod acc p (htodo p (List.mem_cons_self p t))
    · intro q hq
      rw [cullStep_sceneGids_other cand lod acc p _ (hptne q hq)]
      exact htodo q (List.mem_cons_of_mem p hq)

theorem cullShapes_sceneGids (s : ManagerState) (vb : Viewport) :
    (cullShapes s vb).1.sceneGids =
      (s.shapes.foldl
        (cullStep (cullCand s vb) (lodLevelOfArea (vb.width * vb.height)))
        ⟨[], s.sceneGids, s.shapesInScene, 0, 0, 0, 0⟩).sceneGids := by
  cases h : s.spatialIndex with
  | none =>
    simp [cullShapes, h, buildSpatialIndex, syncHandleVisibility_sceneGids,
      cullCand, indexOf]
  | some idx =>
    simp [cullShapes, h, syncHandleVisibility_sceneGids, cullCand, indexOf]

theorem cullShapes_nextGid (s : ManagerState) (vb : Viewport) :
    (cullShapes s vb).1.nextGid = s.nextGid := by
  cases h : s.spatialIndex with
  | none => simp [cullShapes, h, buildSpatialIndex, syncHandleVisibility_nextGid]
  | some idx => simp [cullShapes, h, syncHandleVisibility_nextGid]

theorem updateShapeVisuals_sceneGids (s : ManagerState) (id : String) (b : Bool) :
    (updateShapeVisuals s id b).sceneGids = s.sceneGids := by
  rw [updateShapeVisuals_eq]

theorem updateShapeVisuals_nextGid (s : ManagerState) (id : String) (b : Bool) :
    (updateShapeVisuals s id b).nextGid = s.nextGid := by
  rw [updateShapeVisuals_eq]

theorem foldl_updateShapeVisuals_sceneGids (l : List String) (s : ManagerState) :
    (l.foldl (fun st sel => updateShapeVisuals st sel false) s).sceneGids =
      s.sceneGids := by
  induction l generalizing s with
  | nil => rfl
  | cons a t ih => rw [List.foldl_cons, ih, updateShapeVisuals_sceneGids]

theorem foldl_updateShapeVisuals_nextGid (l : List String) (s : ManagerState) :
    (l.foldl (fun st sel => updateShapeVisuals st sel false) s).nextGid =
      s.nextGid := by
  induction l generalizing s with
  | nil => rfl
  | cons a t ih => rw [List.foldl_cons, ih, updateShapeVisuals_nextGid]

theorem createResizeHandles_sceneGids (s : ManagerState) (id : String) :
    (createResizeHandles s id).sceneGids = s.sceneGids := by
  obtain ⟨hl, h⟩ := createResizeHandles_eq s id
  rw [h]

theorem createResizeHandles_nextGid (s : ManagerState) (id : String) :
    (createResizeHandles s id).nextGid = s.nextGid := by
  obtain ⟨hl, h⟩ := createResizeHandles_eq s id
  rw [h]

theorem updateResizeHandles_sceneGids (s : ManagerState) (id : String) :
    (updateResizeHandles s id).sceneGids = s.sceneGids := by
  obtain ⟨hl, h⟩ := updateResizeHandles_eq s id
  rw [h]

theorem updateResizeHandles_nextGid (s : ManagerState) (id : String) :
    (updateResizeHandles s id).nextGid = s.nextGid := by
  obtain ⟨hl, h⟩ := updateResizeHandles_eq s id
  rw [h]

theorem selectShape_sceneGids (s : ManagerState) (id : String) (m : Bool) :
    (selectShape s id m).sceneGids = s.sceneGids := by
  unfold selectShape notifySelection clearResizeHandles
  cases m
  · simp [apply_ite ManagerState.sceneGids, createResizeHandles_sceneGids,
      updateShapeVisuals_sceneGids, foldl_updateShapeVisuals_sceneGids]
  · simp [apply_ite ManagerState.sceneGids, createResizeHandles_sceneGids,
      updateShapeVisuals_sceneGids]

theorem selectShape_nextGid (s : ManagerState) (id : String) (m : Bool) :
    (selectShape s id m).nextGid = s.nextGid := by
  unfold selectShape notifySelection clearResizeHandles
  cases m
  · simp [apply_ite ManagerState.nextGid, createResizeHandles_nextGid,
      updateShapeVisuals_nextGid, foldl_updateShapeVisuals_nextGid]
  · simp [apply_ite ManagerState.nextGid, createResizeHandles_nextGid,
      updateShapeVisuals_nextGid]

theorem deselectShape_core (s : ManagerState) (id : String) :
    (deselectShape s id).shapes = s.shapes ∧
    (deselectShape s id).sceneGids = s.sceneGids ∧
    (deselectShape s id).nextGid = s.nextGid := by
  unfold deselectShape notifySelection clearResizeHandles
  by_cases hmem : id ∈ s.selectedShapes
  · simp only [hmem, if_true]
    split
    · split <;>
        simp [createResizeHandles_shapes, createResizeHandles_sceneGids,
          createResizeHandles_nextGid, updateShapeVisuals_shapes,
          updateShapeVisuals_sceneGids, updateShapeVisuals_nextGid]
    · simp [updateShapeVisuals_shapes, updateShapeVisuals_sceneGids,
        updateShapeVisuals_nextGid]
  · simp [hmem]

theorem clearSelection_core (s : ManagerState) :
    (clearSelection s).shapes = s.shapes ∧
    (clearSelection s).sceneGids = s.sceneGids ∧
    (clearSelection s).nextGid = s.nextGid := by
  unfold clearSelection notifySelection clearResizeHandles
  refine ⟨?_, ?_, ?_⟩ <;>
    simp [foldl_updateShapeVisuals_shapes, foldl_updateShapeVisuals_sceneGids,
      foldl_updateShapeVisuals_nextGid]

theorem handlePointerMove_view (f : ℚ → ℚ) (s : ManagerState) (pos : Coordinate)
    (hkeys : (s.shapes.map Prod.fst).Nodup) :
    (handlePointerMove f s pos).shapes.map (fun q => (q.1, q.2.gid, q.2.inScene)) =
      s.shapes.map (fun q => (q.1, q.2.gid, q.2.inScene)) ∧
    (handlePointerMove f s pos).sceneGids = s.sceneGids ∧
    (handlePointerMove f s pos).nextGid = s.nextGid := by
  unfold handlePointerMove
  cases ha : s.activeShapeId with
  | none => exact ⟨rfl, rfl, rfl⟩
  | some aid =>
    dsimp only
    by_cases hd : s.isDragging
    · simp only [hd, if_true]
      cases hg : mapGet s.shapes aid with
      | none => exact ⟨rfl, rfl, rfl⟩
      | some e =>
        dsimp only
        have hview : ∀ g : ShapeGeom,
            (mapSet s.shapes aid
              { e with shape := { e.shape with geom := g } }).map
                (fun q => (q.1, q.2.gid, q.2.inScene)) =
              s.shapes.map (fun q => (q.1, q.2.gid, q.2.inScene)) := by
          intro g
          exact view_mapSet_same s.shapes aid _ e hkeys hg rfl rfl
        obtain ⟨gid, sh, insc⟩ := e
        obtain ⟨sid, geom, sty, lab⟩ := sh
        cases geom with
        | polygon cs =>
          cases hc : cs.head? with
          | none =>
            simp [hc, updateResizeHandles_shapes, updateResizeHandles_sceneGids,
              updateResizeHandles_nextGid, updateShapeVisuals_shapes,
              updateShapeVisuals_sceneGids, updateShapeVisuals_nextGid]
          | some c0 =>
            refine ⟨?_, ?_, ?_⟩ <;>
              simp [hc, updateResizeHandles_shapes, updateResizeHandles_sceneGids,
                updateResizeHandles_nextGid, updateShapeVisuals_shapes,
                updateShapeVisuals_sceneGids, updateShapeVisuals_nextGid,
                hview]
        | point c r =>
          refine ⟨?_, ?_, ?_⟩ <;>
            simp [updateResizeHandles_shapes, updateResizeHandles_sceneGids,
              updateResizeHandles_nextGid, updateShapeVisuals_shapes,
              updateShapeVisuals_sceneGids, updateShapeVisuals_nextGid, hview]
        | line ps =>
          cases hc : ps.head? with
          | none =>
            simp [hc, updateResizeHandles_shapes, updateResizeHandles_sceneGids,
              updateResizeHandles_nextGid, updateShapeVisuals_shapes,
              updateShapeVisuals_sceneGids, updateShapeVisuals_nextGid]
          | some p0 =>
            refine ⟨?_, ?_, ?_⟩ <;>
              simp [hc, updateResizeHandles_shapes, updateResizeHandles_sceneGids,
                updateResizeHandles_nextGid, updateShapeVisuals_shapes,
                updateShapeVisuals_sceneGids, updateShapeVisuals_nextGid,
                hview]
    · by_cases hr : s.isResizing
      · simp only [hd, hr, if_false, if_true]
        cases hg : mapGet s.shapes aid with
        | none => exact ⟨rfl, rfl, rfl⟩
        | some e =>
          dsimp only
          have hview : ∀ g : ShapeGeom,
              (mapSet s.shapes aid
                { e with shape := { e.shape with geom := g } }).map
                  (fun q => (q.1, q.2.gid, q.2.inScene)) =
                s.shapes.map (fun q => (q.1, q.2.gid, q.2.inScene)) := by
            intro g
            exact view_mapSet_same s.shapes aid _ e hkeys hg rfl rfl
          obtain ⟨gid, sh, insc⟩ := e
          obtain ⟨sid, geom, sty, lab⟩ := sh
          cases geom with
          | polygon cs =>
            refine ⟨?_, ?_, ?_⟩ <;>
              simp [updateResizeHandles_shapes, updateResizeHandles_sceneGids,
                updateResizeHandles_nextGid, updateShapeVisuals_shapes,
                updateShapeVisuals_sceneGids, updateShapeVisuals_nextGid,
                hview]
          | point c r =>
            refine ⟨?_, ?_, ?_⟩ <;>
              simp [updateResizeHandles_shapes, updateResizeHandles_sceneGids,
                updateResizeHandles_nextGid, updateShapeVisuals_shapes,
                updateShapeVisuals_sceneGids, updateShapeVisuals_nextGid,
                hview]
          | line ps =>
            simp [updateResizeHandles_shapes, updateResizeHandles_sceneGids,
              updateResizeHandles_nextGid, updateShapeVisuals_shapes,
              updateShapeVisuals_sceneGids, updateShapeVisuals_nextGid]
      · simp [hd, hr]

theorem WF_shapes_eq (s1 s2 : ManagerState)
    (hsh : s2.shapes = s1.shapes) (hsc : s2.sceneGids = s1.sceneGids)
    (hng : s2.nextGid = s1.nextGid) (h : WF s1) : WF s2 :=
  WF_of_view_eq s1 s2 (by rw [hsh]) hsc hng h

theorem addShape_WF (s : ManagerState) (sh : Shape) (h : WF s) :
    WF (addShape s sh) ∧
    mapGet (addShape s sh).shapes sh.id = some ⟨s.nextGid, sh, false⟩ ∧
    s.nextGid ∉ (addShape s sh).sceneGids := by
  obtain ⟨hinv, hbound, hscb, hgids, hkeys⟩ := h
  have hfresh : ∀ p ∈ s.shapes, p.2.gid ≠ s.nextGid :=
    fun p hp => Nat.ne_of_lt (hbound p hp)
  have hnotin : s.nextGid ∉ s.sceneGids :=
    fun hmem => absurd (hscb _ hmem) (lt_irrefl _)
  unfold addShape WF
  dsimp only
  refine ⟨⟨?_, ?_, ?_, ?_, ?_⟩, mapGet_mapSet_self s.shapes sh.id _, hnotin⟩
  · intro p hp
    rcases mem_mapSet hp with hold | rfl
    · exact hinv p hold
    · simpa using hnotin
  · intro p hp
    rcases mem_mapSet hp with hold | rfl
    · exact Nat.lt_succ_of_lt (hbound p hold)
    · exact Nat.lt_succ_self _
  · intro g hg
    exact Nat.lt_succ_of_lt (hscb g hg)
  · exact nodup_gids_mapSet s.shapes sh.id _ hkeys hgids hfresh
  · exact nodup_keys_mapSet s.shapes sh.id _ hkeys

theorem removeShape_WF (s : ManagerState) (id : String) (h : WF s) :
    WF (removeShape s id) := by
  obtain ⟨hinv, hbound, hscb, hgids, hkeys⟩ := h
  unfold removeShape
  cases hg : mapGet s.shapes id with
  | none => exact ⟨hinv, hbound, hscb, hgids, hkeys⟩
  | some e =>
    dsimp only
    have hmem := mem_of_mapGet hg
    have hgidInj := List.inj_on_of_nodup_map hgids
    unfold WF mapDelete
    dsimp only
    refine ⟨?_, ?_, ?_, ?_, ?_⟩
    · intro p hp
      have hp' := List.mem_of_mem_filter hp
      have hpk : p.1 ≠ id := by simpa using List.of_mem_filter hp
      have hne : p.2.gid ≠ e.gid := by
        intro heq
        have hpe : p = (id, e) := hgidInj hp' hmem heq
        exact hpk (by rw [hpe])
      rw [Finset.mem_erase]
      constructor
      · intro hsc
        exact ⟨hne, (hinv p hp').mp hsc⟩
      · intro hb
        exact (hinv p hp').mpr hb.2
    · intro p hp
      exact hbound p (List.mem_of_mem_filter hp)
    · intro g hg2
      exact hscb g (Finset.mem_of_mem_erase hg2)
    · exact List.Nodup.sublist ((List.filter_sublist _).map _) hgids
    · exact List.Nodup.sublist ((List.filter_sublist _).map _) hkeys

theorem clear_WF (s : ManagerState) : WF (clear s) := by
  unfold clear WF
  refine ⟨?_, ?_, ?_, ?_, ?_⟩ <;> simp

theorem buildSpatialIndex_WF (s : ManagerState) (h : WF s) :
    WF (buildSpatialIndex s) :=
  WF_shapes_eq s _ rfl rfl rfl h

theorem handlePointerUp_WF (s : ManagerState) (h : WF s) :
    WF (handlePointerUp s) :=
  WF_shapes_eq s _ rfl rfl rfl h

theorem selectShape_WF (s : ManagerState) (id : String) (m : Bool) (h : WF s) :
    WF (selectShape s id m) :=
  WF_shapes_eq s _ (selectShape_shapes s id m) (selectShape_sceneGids s id m)
    (selectShape_nextGid s id m) h

theorem deselectShape_WF (s : ManagerState) (id : String) (h : WF s) :
    WF (deselectShape s id) :=
  WF_shapes_eq s _ (deselectShape_core s id).1 (deselectShape_core s id).2.1
    (deselectShape_core s id).2.2 h

theorem clearSelection_WF (s : ManagerState) (h : WF s) :
    WF (clearSelection s) :=
  WF_shapes_eq s _ (clearSelection_core s).1 (clearSelection_core s).2.1
    (clearSelection_core s).2.2 h

theorem handlePointerMove_WF (f : ℚ → ℚ) (s : ManagerState) (pos : Coordinate)
    (h : WF s) : WF (handlePointerMove f s pos) := by
  obtain ⟨hv, hsc, hng⟩ := handlePointerMove_view f s pos h.2.2.2.2
  exact WF_of_view_eq s _ hv hsc hng h

theorem cullShapes_WF (s : ManagerState) (vb : Viewport) (h : WF s) :
    WF (cullShapes s vb).1 := by
  obtain ⟨hinv, hbound, hscb, hgids, hkeys⟩ := h
  have hsh := cullShapes_shapes s vb
  have hscg := cullShapes_sceneGids s vb
  have hng := cullShapes_nextGid s vb
  have hfold : ((s.shapes.foldl
      (cullStep (cullCand s vb) (lodLevelOfArea (vb.width * vb.height)))
      ⟨[], s.sceneGids, s.shapesInScene, 0, 0, 0, 0⟩)).shapes =
      s.shapes.map (fun p => (p.1,
        { p.2 with inScene :=
            cullFlag (cullCand s vb) (lodLevelOfArea (vb.width * vb.height)) p.1 p.2 })) := by
    rw [foldl_cullStep_shapes]
    simp
  have hinv2 := foldl_cullStep_sceneInv (cullCand s vb)
      (lodLevelOfArea (vb.width * vb.height)) s.shapes
      ⟨[], s.sceneGids, s.shapesInScene, 0, 0, 0, 0⟩
      (by simpa using hgids)
      (by intro q hq; exact absurd hq (List.not_mem_nil q))
      (by intro p hp; exact hinv p hp)
  have hsub := foldl_cullStep_sceneGids_subset (cullCand s vb)
      (lodLevelOfArea (vb.width * vb.height)) s.shapes
      ⟨[], s.sceneGids, s.shapesInScene, 0, 0, 0, 0⟩
  dsimp only at hsub
  unfold WF
  refine ⟨?_, ?_, ?_, ?_, ?_⟩
  · intro p hp
    rw [hscg]
    refine hinv2 p ?_
    rw [hfold, ← hsh]
    exact hp
  · intro p hp
    rw [hng]
    rw [hsh] at hp
    obtain ⟨q, hq, rfl⟩ := List.mem_map.mp hp
    exact hbound q hq
  · intro g hg2
    rw [hng]
    rw [hscg] at hg2
    rcases Finset.mem_union.mp (hsub hg2) with h1 | h1
    · exact hscb g h1
    · obtain ⟨q, hq, rfl⟩ := List.mem_map.mp (List.mem_toFinset.mp h1)
      exact hbound q hq
  · rw [hsh, List.map_map]
    exact hgids
  · rw [hsh, List.map_map]
    exact hkeys

/-- C10: the store keeps the invariant that an entry's `inScene` flag is
true exactly when its graphics object is attached to the shapes container
(the first conjunct of `WF`, which also carries the allocator bound and
key/gid uniqueness needed to maintain it).  `addShape` registers the new
entry with `inScene = false` and its fresh graphics not attached; the
invariant is preserved by every operation (`addShape`,
`buildSpatialIndex`, `cullShapes`, `removeShape`, `clear`, `selectShape`,
`deselectShape`, `clearSelection`, `handlePointerMove`,
`handlePointerUp`); and apart from `cullShapes` (and entry removal by
`removeShape`/`clear`) no operation toggles a flag or the attachment:
selection and interaction operations leave the scene set and the
(key, gid, inScene) view of the store unchanged. -/
theorem scene_flag_invariant (s : ManagerState) (sh : Shape) (id : String)
    (m : Bool) (f : ℚ → ℚ) (pos : Coordinate) (vb : Viewport) (hwf : WF s) :
    (∀ p ∈ s.shapes, p.2.inScene = true ↔ p.2.gid ∈ s.sceneGids) ∧
    (mapGet (addShape s sh).shapes sh.id = some ⟨s.nextGid, sh, false⟩ ∧
      s.nextGid ∉ (addShape s sh).sceneGids) ∧
    (WF (addShape s sh) ∧ WF (buildSpatialIndex s) ∧ WF (cullShapes s vb).1 ∧
      WF (removeShape s id) ∧ WF (clear s) ∧ WF (selectShape s id m) ∧
      WF (deselectShape s id) ∧ WF (clearSelection s) ∧
      WF (handlePointerMove f s pos) ∧ WF (handlePointerUp s)) ∧
    ((selectShape s id m).sceneGids = s.sceneGids ∧
      (selectShape s id m).shapes = s.shapes ∧
      (deselectShape s id).sceneGids = s.sceneGids ∧
      (deselectShape s id).shapes = s.shapes ∧
      (clearSelection s).sceneGids = s.sceneGids ∧
      (clearSelection s).shapes = s.shapes ∧
      (handlePointerMove f s pos).sceneGids = s.sceneGids ∧
      (handlePointerMove f s pos).shapes.map
          (fun q => (q.1, q.2.gid, q.2.inScene)) =
        s.shapes.map (fun q => (q.1, q.2.gid, q.2.inScene)) ∧
      (handlePointerUp s).sceneGids = s.sceneGids ∧
      (handlePointerUp s).shapes = s.shapes ∧
      (buildSpatialIndex s).sceneGids = s.sceneGids ∧
      (buildSpatialIndex s).shapes = s.shapes) :=
  ⟨hwf.1, ⟨(addShape_WF s sh hwf).2.1, (addShape_WF s sh hwf).2.2⟩,
    ⟨(addShape_WF s sh hwf).1, buildSpatialIndex_WF s hwf, cullShapes_WF s vb hwf,
      removeShape_WF s id hwf, clear_WF s, selectShape_WF s id m hwf,
      deselectShape_WF s id hwf, clearSelection_WF s hwf,
      handlePointerMove_WF f s pos hwf, handlePointerUp_WF s hwf⟩,
    selectShape_sceneGids s id m, selectShape_shapes s id m,
    (deselectShape_core s id).2.1, (deselectShape_core s id).1,
    (clearSelection_core s).2.1, (clearSelection_core s).1,
    (handlePointerMove_view f s pos hwf.2.2.2.2).2.1,
    (handlePointerMove_view f s pos hwf.2.2.2.2).1,
    rfl, rfl, rfl, rfl⟩

/-- C10 witness: the invariant theorem instantiated at the freshly
constructed manager, whose state satisfies `WF`. -/
theorem scene_flag_invariant_witness :
    WF initialState ∧ WF (addShape initialState triangleA) :=
  ⟨by simp [WF, initialState],
    (scene_flag_invariant initialState triangleA "A" false sqrtZero ⟨0, 0⟩
      vbTest (by simp [WF, initialState])).2.2.1.1⟩

/-- C9 witness: a drag gesture whose shape id is absent from the store. -/
theorem pointer_handlers_noop_on_missing_witness :
    (stGhostDrag.activeShapeId = some "ghost") ∧
    (stGhostDrag.isDragging = true ∨ stGhostDrag.isResizing = true) ∧
    (mapGet stGhostDrag.shapes "ghost" = none) ∧
    (handlePointerMove sqrtZero stGhostDrag ⟨0, 0⟩ = stGhostDrag ∧
      (handlePointerUp stGhostDrag).isDragging = false ∧
      (handlePointerUp stGhostDrag).isResizing = false ∧
      (handlePointerUp stGhostDrag).activeShapeId = none ∧
      (handlePointerUp stGhostDrag).resizeHandleIndex = -1 ∧
      (handlePointerUp stGhostDrag).shapes = stGhostDrag.shapes ∧
      (handlePointerUp stGhostDrag).sceneGids = stGhostDrag.sceneGids) :=
  ⟨rfl, Or.inl rfl, rfl,
    pointer_handlers_noop_on_missing sqrtZero stGhostDrag ⟨0, 0⟩ "ghost" rfl
      (Or.inl rfl) rfl⟩

end PixiCad
